import Mathlib

/-!
Verification of the state-representation core of OrbitX (`orbitx/state.py`).

The development shallowly embeds the `PhysicsState` container: a structured
snapshot (`PhysicalState`, a list of `EntityRec` records plus scalar globals)
together with a flat numeric buffer (`array_rep`, a list of rationals modelling
the float64 y-vector).  Mutable per-entity fields live in the buffer in
field-major blocks; unchanging fields live only in the snapshot.  IEEE float64
values are modelled as exact rationals, and `2 * np.pi` is modelled by the
rational constant `two_pi` (any positive constant plays the same structural
role in the modular heading reduction).
-/

namespace OrbitXState

/-- The per-entity schema fields of the `Entity` protobuf message, in
declaration order (the order of the typed field listing in `state.py`'s
`Entity` class, which matches the assignment tuples in `as_proto` and
`__setitem__`). -/
inductive Field where
  | name
  | x
  | y
  | vx
  | vy
  | r
  | mass
  | heading
  | spin
  | fuel
  | throttle
  | landed_on
  | broken
  | artificial
  | atmosphere_thickness
  | atmosphere_scaling
deriving DecidableEq, Fintype

/-- Membership in `_PER_ENTITY_UNCHANGING_FIELDS`. -/
def Field.unchanging : Field → Bool
  | .name => true
  | .mass => true
  | .r => true
  | .artificial => true
  | .atmosphere_thickness => true
  | .atmosphere_scaling => true
  | _ => false

/-- Whether the protobuf cpp_type of the field is FLOAT/DOUBLE. -/
def Field.isFloatType : Field → Bool
  | .name => false
  | .landed_on => false
  | .broken => false
  | .artificial => false
  | _ => true

/-- All schema fields in declaration order (`protos.Entity.DESCRIPTOR.fields`). -/
def Field.declList : List Field :=
  [.name, .x, .y, .vx, .vy, .r, .mass, .heading, .spin, .fuel, .throttle,
   .landed_on, .broken, .artificial, .atmosphere_thickness, .atmosphere_scaling]

/-- `_PER_ENTITY_MUTABLE_FIELDS`: every schema field not in the unchanging
list, in declaration order. -/
def PER_ENTITY_MUTABLE_FIELDS : List Field :=
  Field.declList.filter (fun f => !f.unchanging)

/-- `_FIELD_ORDERING[f]`: the zero-based block index of a mutable field. -/
def Field.blockIndex (f : Field) : ℕ :=
  PER_ENTITY_MUTABLE_FIELDS.findIdx (fun g => decide (g = f))

/-- `len(_PER_ENTITY_MUTABLE_FIELDS)`, the number k of mutable fields. -/
def NUM_MUTABLE_FIELDS : ℕ := PER_ENTITY_MUTABLE_FIELDS.length

/-- A runtime value of a schema field. -/
inductive Value where
  | num (q : ℚ)
  | str (s : String)
  | bool (b : Bool)
deriving DecidableEq

/-- One structured entity record (`protos.Entity`), float64 values modelled as
exact rationals. -/
structure EntityRec where
  name : String := ""
  x : ℚ := 0
  y : ℚ := 0
  vx : ℚ := 0
  vy : ℚ := 0
  r : ℚ := 0
  mass : ℚ := 0
  heading : ℚ := 0
  spin : ℚ := 0
  fuel : ℚ := 0
  throttle : ℚ := 0
  landed_on : String := ""
  broken : Bool := false
  artificial : Bool := false
  atmosphere_thickness : ℚ := 0
  atmosphere_scaling : ℚ := 0
deriving DecidableEq, Inhabited

/-- Reading field `f` of a structured entity record (the `Entity` wrapper's
pass-through property). -/
def EntityRec.get (e : EntityRec) : Field → Value
  | .name => Value.str e.name
  | .x => Value.num e.x
  | .y => Value.num e.y
  | .vx => Value.num e.vx
  | .vy => Value.num e.vy
  | .r => Value.num e.r
  | .mass => Value.num e.mass
  | .heading => Value.num e.heading
  | .spin => Value.num e.spin
  | .fuel => Value.num e.fuel
  | .throttle => Value.num e.throttle
  | .landed_on => Value.str e.landed_on
  | .broken => Value.bool e.broken
  | .artificial => Value.bool e.artificial
  | .atmosphere_thickness => Value.num e.atmosphere_thickness
  | .atmosphere_scaling => Value.num e.atmosphere_scaling

/-- Writing field `f` of a structured entity record; `none` on a kind
mismatch (a `TypeError` in the source). -/
def EntityRec.setVal (e : EntityRec) : Field → Value → Option EntityRec
  | .name, Value.str v => some { e with name := v }
  | .x, Value.num v => some { e with x := v }
  | .y, Value.num v => some { e with y := v }
  | .vx, Value.num v => some { e with vx := v }
  | .vy, Value.num v => some { e with vy := v }
  | .r, Value.num v => some { e with r := v }
  | .mass, Value.num v => some { e with mass := v }
  | .heading, Value.num v => some { e with heading := v }
  | .spin, Value.num v => some { e with spin := v }
  | .fuel, Value.num v => some { e with fuel := v }
  | .throttle, Value.num v => some { e with throttle := v }
  | .landed_on, Value.str v => some { e with landed_on := v }
  | .broken, Value.bool v => some { e with broken := v }
  | .artificial, Value.bool v => some { e with artificial := v }
  | .atmosphere_thickness, Value.num v => some { e with atmosphere_thickness := v }
  | .atmosphere_scaling, Value.num v => some { e with atmosphere_scaling := v }
  | _, _ => none

/-- The structured snapshot (`protos.PhysicalState`): entity records plus
scalar globals. -/
structure PhysicalState where
  entities : List EntityRec := []
  timestamp : ℚ := 0
  srb_time : ℚ := 0
  time_acc : ℚ := 0
  parachute_deployed : Bool := false
  reference : String := ""
  target : String := ""
  navmode : ℤ := 0
deriving DecidableEq, Inhabited

/-- `PhysicsState.NO_INDEX`, the sentinel for "not landed on anything". -/
def NO_INDEX : ℤ := -1

/-- `PhysicsState.N_SINGULAR_ELEMENTS`: trailing scalar slots of the y-vector. -/
def N_SINGULAR_ELEMENTS : ℕ := 2

/-- The float64 value of `2 * np.pi`, modelled as an exact rational. -/
def two_pi : ℚ := 6283185307179586 / 1000000000000000

/-- `np.mod a b` for a positive divisor: `a - b * ⌊a / b⌋`. -/
def qmod (a b : ℚ) : ℚ := a - b * ⌊a / b⌋

/-- Python `int()` on a float: truncation toward zero. -/
def pyInt (q : ℚ) : ℤ := if q < 0 then ⌈q⌉ else ⌊q⌋

/-- Python's `list.index` on the entity-name table, as an `Option`: index of
the first occurrence, `none` when absent (a `ValueError` in the source). -/
def listIndex? (target : String) : List String → Option ℕ
  | [] => none
  | s :: rest => if s = target then some 0 else (listIndex? target rest).map (· + 1)

/-- The error conditions of the state layer.  `noEntity` models
`PhysicsState.NoEntityError`; `valueError` models the plain `ValueError`
raised by `list.index`; `assertionFailed`, `indexError` and `typeError`
model the corresponding Python exceptions. -/
inductive StateError where
  | noEntity (name : String)
  | valueError (name : String)
  | assertionFailed
  | indexError
  | typeError
deriving DecidableEq

deriving instance DecidableEq for Except

/-- `PhysicsState._name_to_index`: the empty name maps to the sentinel
`NO_INDEX` without a search; otherwise a `list.index` search whose failure is
re-raised as `NoEntityError`. -/
def name_to_index (names : List String) (name : String) : Except StateError ℤ :=
  if name ≠ "" then
    match listIndex? name names with
    | some i => Except.ok (i : ℤ)
    | none => Except.error (StateError.noEntity name)
  else Except.ok NO_INDEX

/-- The float64 stored in the y-vector for a mutable non-landed-on field of
entity `e`: numeric fields directly, the broken flag as 0.0/1.0. -/
def numericValue (e : EntityRec) : Field → ℚ
  | .x => e.x
  | .y => e.y
  | .vx => e.vx
  | .vy => e.vy
  | .heading => e.heading
  | .spin => e.spin
  | .fuel => e.fuel
  | .throttle => e.throttle
  | .broken => if e.broken then 1 else 0
  | _ => 0

/-- The float64 stored in the y-vector for mutable field `f` of entity `e`:
the landed-on name is resolved through `name_to_index` (which can raise
`NoEntityError`), every other mutable field through `numericValue`. -/
def mutableValue (names : List String) (e : EntityRec) (f : Field) :
    Except StateError ℚ :=
  if f = Field.landed_on then
    match name_to_index names e.landed_on with
    | Except.ok idx => Except.ok (idx : ℚ)
    | Except.error err => Except.error err
  else Except.ok (numericValue e f)

/-- Effectful map over a list, short-circuiting on the first error; models a
Python `for` loop whose body may raise. -/
def exMap {α β : Type} (g : α → Except StateError β) :
    List α → Except StateError (List β)
  | [] => Except.ok []
  | a :: rest =>
    match g a with
    | Except.error e => Except.error e
    | Except.ok b =>
      match exMap g rest with
      | Except.error e => Except.error e
      | Except.ok bs => Except.ok (b :: bs)

/-- Concatenation of the per-field blocks into the flat body of the y-vector. -/
def concatBlocks : List (List ℚ) → List ℚ
  | [] => []
  | bl :: rest => bl ++ concatBlocks rest

/-- One field-major block of the y-vector: mutable field `f` for every entity
in snapshot order. -/
def fieldBlock (names : List String) (entities : List EntityRec) (f : Field) :
    Except StateError (List ℚ) :=
  exMap (fun e => mutableValue names e f) entities

/-- The `y is None` branch of `PhysicsState.__init__`: for every mutable field
(in `_FIELD_ORDERING` order) and every entity, fill slot `n * field_n + i`. -/
def buildBufferBody (names : List String) (entities : List EntityRec) :
    Except StateError (List ℚ) :=
  match exMap (fieldBlock names entities) PER_ENTITY_MUTABLE_FIELDS with
  | Except.ok blocks => Except.ok (concatBlocks blocks)
  | Except.error e => Except.error e

/-- Structural map with the position of each element. -/
def mapWithIdx (g : ℕ → ℚ → ℚ) : ℕ → List ℚ → List ℚ
  | _, [] => []
  | k, v :: rest => g k v :: mapWithIdx g (k + 1) rest

/-- `np.mod(self.Heading, 2 * np.pi, out=self.Heading)`: reduce every slot of
the heading block `[ord * n, (ord + 1) * n)` modulo `two_pi`, in place. -/
def normalizeHeading (n : ℕ) (buf : List ℚ) : List ℚ :=
  mapWithIdx (fun idx v =>
    if Field.heading.blockIndex * n ≤ idx ∧ idx < (Field.heading.blockIndex + 1) * n
    then qmod v two_pi else v) 0 buf

/-- The `_entities_with_atmospheres` cache: indices of entities whose
atmosphere scaling and thickness are both nonzero. -/
def atmosphereIndices (entities : List EntityRec) : List ℕ :=
  (List.range entities.length).filter (fun i =>
    decide ((entities.getD i default).atmosphere_scaling ≠ 0 ∧
      (entities.getD i default).atmosphere_thickness ≠ 0))

/-- The state container: a private snapshot copy, the entity count, the fixed
name table, the flat y-vector and the atmosphere-index cache. -/
structure PhysicsState where
  proto_state : PhysicalState
  n : ℕ
  entity_names : List String
  array_rep : List ℚ
  entities_with_atmospheres : List ℕ
deriving DecidableEq, Inhabited

/-- The tail of `PhysicsState.__init__`: the two shape assertions, the heading
normalization and the atmosphere cache. -/
def initFinish (proto2 : PhysicalState) (nn : ℕ) (names : List String)
    (buf : List ℚ) : Except StateError PhysicsState :=
  if (buf.length - N_SINGULAR_ELEMENTS) % NUM_MUTABLE_FIELDS ≠ 0 then
    Except.error StateError.assertionFailed
  else if (buf.length - N_SINGULAR_ELEMENTS) / NUM_MUTABLE_FIELDS ≠ nn then
    Except.error StateError.assertionFailed
  else Except.ok
    { proto_state := proto2
      n := nn
      entity_names := names
      array_rep := normalizeHeading nn buf
      entities_with_atmospheres := atmosphereIndices proto2.entities }

/-- `PhysicsState.__init__(y, proto_state)`.  With `y? = none` the y-vector is
built from the snapshot (appending the srb-time and time-acc trailing slots);
with `y? = some y` the buffer is adopted directly and the snapshot copy's
`srb_time` / `time_acc` are overwritten from the trailing slots `y[-2]`,
`y[-1]` (an `IndexError` when the buffer is shorter than two slots). -/
def PhysicsState.init (y? : Option (List ℚ)) (proto : PhysicalState) :
    Except StateError PhysicsState :=
  let nn := proto.entities.length
  let names := proto.entities.map EntityRec.name
  match y? with
  | none =>
    match buildBufferBody names proto.entities with
    | Except.error e => Except.error e
    | Except.ok body =>
        initFinish proto nn names (body ++ [proto.srb_time, proto.time_acc])
  | some yv =>
    if yv.length < N_SINGULAR_ELEMENTS then Except.error StateError.indexError
    else initFinish
      { proto with srb_time := yv.getD (yv.length - 2) 0,
                   time_acc := yv.getD (yv.length - 1) 0 }
      nn names yv

/-- The generated `_EntityView` accessor for a mutable float64 field: read the
owning state's buffer at offset `n * field_n + index`. -/
def PhysicsState.viewFloat (s : PhysicsState) (i : ℕ) (f : Field) : ℚ :=
  s.array_rep.getD (s.n * f.blockIndex + i) 0

/-- The generated `_EntityView` accessor for the mutable boolean field: the
stored float converted back with `bool(...)`. -/
def PhysicsState.viewBroken (s : PhysicsState) (i : ℕ) : Bool :=
  decide (s.array_rep.getD (s.n * Field.broken.blockIndex + i) 0 ≠ 0)

/-- The generated `_EntityView` accessor for the landed-on field: the stored
float converted with `int(...)`, the sentinel mapping to the empty name and
any other index looked up in the owner's fixed name table.  (An index outside
the table raises in the source and never occurs in a validly constructed
state; it is modelled by the empty-name default.) -/
def PhysicsState.viewLandedOn (s : PhysicsState) (i : ℕ) : String :=
  let idx := pyInt (s.array_rep.getD (s.n * Field.landed_on.blockIndex + i) 0)
  if idx = NO_INDEX then "" else s.entity_names.getD idx.toNat ""

/-- Reading schema field `f` of entity `i` through an `_EntityView`: the
dispatch installed by the module-level accessor loop. -/
def PhysicsState.viewGet (s : PhysicsState) (i : ℕ) (f : Field) : Value :=
  if f.unchanging then (s.proto_state.entities.getD i default).get f
  else if f.isFloatType then Value.num (s.viewFloat i f)
  else if f = Field.broken then Value.bool (s.viewBroken i)
  else Value.str (s.viewLandedOn i)

/-- The generated `_EntityView` setter for a mutable numeric slot: write the
owning state's buffer at offset `n * field_n + index`. -/
def PhysicsState.setFloat (s : PhysicsState) (i : ℕ) (f : Field) (q : ℚ) :
    PhysicsState :=
  { s with array_rep := s.array_rep.set (s.n * f.blockIndex + i) q }

/-- The generated `_EntityView` setter for the landed-on field: resolve the
name through `name_to_index` (which raises `NoEntityError` for a non-empty
absent name, before anything is written), then store the index as a float. -/
def PhysicsState.setLandedOn (s : PhysicsState) (i : ℕ) (name : String) :
    Except StateError PhysicsState :=
  match name_to_index s.entity_names name with
  | Except.ok idx => Except.ok (s.setFloat i Field.landed_on (idx : ℚ))
  | Except.error e => Except.error e

/-- Writing schema field `f` of entity `i` through an `_EntityView`: the
dispatch installed by the module-level accessor loop.  Unchanging fields write
to the owned snapshot; mutable float and boolean fields write to the buffer
(booleans stored as 0.0/1.0 by the float64 array); the landed-on field
resolves the name first.  A value of the wrong kind models the corresponding
Python `TypeError` (or the `assert isinstance(val, str)` for landed-on). -/
def PhysicsState.viewSet (s : PhysicsState) (i : ℕ) (f : Field) (v : Value) :
    Except StateError PhysicsState :=
  if f.unchanging then
    match (s.proto_state.entities.getD i default).setVal f v with
    | some e2 => Except.ok { s with proto_state :=
        { s.proto_state with entities := s.proto_state.entities.set i e2 } }
    | none => Except.error StateError.typeError
  else if f.isFloatType then
    match v with
    | Value.num q => Except.ok (s.setFloat i f q)
    | Value.bool b => Except.ok (s.setFloat i f (if b then 1 else 0))
    | Value.str _ => Except.error StateError.typeError
  else if f = Field.broken then
    match v with
    | Value.bool b => Except.ok (s.setFloat i f (if b then 1 else 0))
    | Value.num q => Except.ok (s.setFloat i f q)
    | Value.str _ => Except.error StateError.typeError
  else
    match v with
    | Value.str nm => s.setLandedOn i nm
    | _ => Except.error StateError.assertionFailed

/-- `PhysicsState.y0()`: the internal y-vector. -/
def PhysicsState.y0 (s : PhysicsState) : List ℚ := s.array_rep

/-- One entity of the snapshot produced by `as_proto`: the snapshot copy's
record with its ten mutable fields overwritten from the entity view. -/
def asProtoEntity (s : PhysicsState) (i : ℕ) : EntityRec :=
  { s.proto_state.entities.getD i default with
    x := s.viewFloat i Field.x
    y := s.viewFloat i Field.y
    vx := s.viewFloat i Field.vx
    vy := s.viewFloat i Field.vy
    heading := s.viewFloat i Field.heading
    spin := s.viewFloat i Field.spin
    fuel := s.viewFloat i Field.fuel
    throttle := s.viewFloat i Field.throttle
    landed_on := s.viewLandedOn i
    broken := s.viewBroken i }

/-- `PhysicsState.as_proto()`: copy the owned snapshot, then overwrite each
entity's ten mutable fields from the entity views (the `zip(self, ...)`
loop). -/
def PhysicsState.as_proto (s : PhysicsState) : PhysicalState :=
  { s.proto_state with entities := (List.range s.n).map (asProtoEntity s) }

/-- The name branch of `PhysicsState.__getitem__`: a plain `list.index`
search over the name table, raising the plain `ValueError` (not
`NoEntityError`) when the name is absent; on success the view is the pair of
the state and the found index. -/
def PhysicsState.getItemName (s : PhysicsState) (name : String) :
    Except StateError ℕ :=
  match listIndex? name s.entity_names with
  | some i => Except.ok i
  | none => Except.error (StateError.valueError name)

/-- Modelled from the spec: `common.HABITAT`, the well-known pilotable
habitat entity name (the `common` module is not among the sources; §8 of the
spec names it "Habitat"). -/
def HABITAT : String := "Habitat"

/-- Modelled from the spec: `common.AYSE`, the well-known pilotable
docking-station entity name (the `common` module is not among the sources;
§8 of the spec names it "AYSE"). -/
def AYSE : String := "AYSE"

/-- `PhysicsState.craft`: the active-craft resolution.  Note the fall-through:
when AYSE is present the code resolves Habitat through `_name_to_index`
whether or not Habitat exists, so a Habitat-less state raises
`NoEntityError` there. -/
def PhysicsState.craft (s : PhysicsState) : Except StateError (Option String) :=
  if HABITAT ∉ s.entity_names ∧ AYSE ∉ s.entity_names then Except.ok none
  else if AYSE ∉ s.entity_names then Except.ok (some HABITAT)
  else
    match name_to_index s.entity_names HABITAT with
    | Except.error e => Except.error e
    | Except.ok hab_index =>
      match name_to_index s.entity_names AYSE with
      | Except.error e => Except.error e
      | Except.ok ayse_index =>
        if s.array_rep.getD (Field.landed_on.blockIndex * s.n + hab_index.toNat) 0
            = (ayse_index : ℚ)
        then Except.ok (some AYSE)
        else Except.ok (some HABITAT)

/-- The ten mutable-field values read out of the source operand of
`__setitem__` before the tuple assignment runs. -/
structure MutableVals where
  x : ℚ
  y : ℚ
  vx : ℚ
  vy : ℚ
  heading : ℚ
  spin : ℚ
  fuel : ℚ
  throttle : ℚ
  landed_on : String
  broken : Bool
deriving DecidableEq

/-- The mutable-field values of a structured entity record. -/
def EntityRec.mvals (e : EntityRec) : MutableVals :=
  ⟨e.x, e.y, e.vx, e.vy, e.heading, e.spin, e.fuel, e.throttle,
   e.landed_on, e.broken⟩

/-- The mutable-field values read through the views of a state at index `j`. -/
def PhysicsState.viewMvals (s : PhysicsState) (j : ℕ) : MutableVals :=
  ⟨s.viewFloat j Field.x, s.viewFloat j Field.y, s.viewFloat j Field.vx,
   s.viewFloat j Field.vy, s.viewFloat j Field.heading,
   s.viewFloat j Field.spin, s.viewFloat j Field.fuel,
   s.viewFloat j Field.throttle, s.viewLandedOn j, s.viewBroken j⟩

/-- The tuple assignment of `__setitem__`: write the ten mutable fields of
slot `i` through the view setters, in source order (the landed-on resolution
runs after the eight float writes and before the broken write). -/
def PhysicsState.writeMutableVals (s : PhysicsState) (i : ℕ) (m : MutableVals) :
    Except StateError PhysicsState :=
  let s1 := (((((((s.setFloat i Field.x m.x).setFloat i Field.y
    m.y).setFloat i Field.vx m.vx).setFloat i Field.vy m.vy).setFloat i
    Field.heading m.heading).setFloat i Field.spin m.spin).setFloat i
    Field.fuel m.fuel).setFloat i Field.throttle m.throttle
  match s1.setLandedOn i m.landed_on with
  | Except.error e => Except.error e
  | Except.ok s2 =>
      Except.ok (s2.setFloat i Field.broken (if m.broken then 1 else 0))

/-- The buffer after the ten slot writes of `__setitem__`'s tuple assignment,
spelled out as the chain of `List.set` operations the view setters perform
(block offsets 0–9 in declaration order, the landed-on index stored as a
float and the broken flag as 0.0/1.0). -/
def writeArray (n i : ℕ) (m : MutableVals) (li : ℤ) (arr : List ℚ) : List ℚ :=
  ((((((((((arr.set (n * 0 + i) m.x).set (n * 1 + i) m.y).set
    (n * 2 + i) m.vx).set (n * 3 + i) m.vy).set (n * 4 + i) m.heading).set
    (n * 5 + i) m.spin).set (n * 6 + i) m.fuel).set (n * 7 + i) m.throttle).set
    (n * 8 + i) ((li : ℤ) : ℚ)).set (n * 9 + i) (if m.broken then 1 else 0))

/-- The source operand of `__setitem__`.  Python object identity of the
view's creator is made explicit: `ownView` is an `_EntityView` whose
`_creator` is the assigned-to state itself, `foreignView` a view of some
other state object. -/
inductive EntitySource where
  | record (e : EntityRec)
  | ownView (j : ℕ)
  | foreignView (other : PhysicsState) (j : ℕ)

/-- `PhysicsState.__setitem__(i, val)` (integer index): the no-op fast path
fires whenever `val` is an `_EntityView` whose creator is this very state,
regardless of the view's index; otherwise the ten mutable fields of the
operand are copied through the view setters of slot `i`. -/
def PhysicsState.setItem (s : PhysicsState) (i : ℕ) (val : EntitySource) :
    Except StateError PhysicsState :=
  match val with
  | EntitySource.ownView _ => Except.ok s
  | EntitySource.record e => s.writeMutableVals i e.mvals
  | EntitySource.foreignView o j => s.writeMutableVals i (o.viewMvals j)

/-- The heading value handed to the constructor for entity `i`: the snapshot
record's heading on the snapshot-only path, the heading-block slot of the
provided buffer otherwise. -/
def ingestedHeading (y? : Option (List ℚ)) (proto : PhysicalState) (i : ℕ) : ℚ :=
  match y? with
  | some yv => yv.getD (Field.heading.blockIndex * proto.entities.length + i) 0
  | none => (proto.entities.getD i default).heading

/-- A snapshot with every entity's heading reduced modulo `two_pi` and all
other data unchanged: the expected result of externalizing a state built
from the snapshot. -/
def headingReduced (S : PhysicalState) : PhysicalState :=
  { S with entities := S.entities.map (fun e => { e with heading := qmod e.heading two_pi }) }

/-! ### Concrete test fixtures -/

/-- A docked habitat entity (test fixture). -/
def habEnt : EntityRec :=
  { name := "Habitat", x := 10, y := 20, vx := 1, vy := 2, r := 5, mass := 100,
    heading := 15 / 2, spin := 3, fuel := 50, throttle := 1 / 2,
    landed_on := "AYSE", broken := false, artificial := true }

/-- A docking-station entity with an atmosphere (test fixture). -/
def ayseEnt : EntityRec :=
  { name := "AYSE", x := 30, y := 40, vx := 0, vy := 0, r := 7, mass := 1000,
    heading := 1, spin := 0, fuel := 60, throttle := 0, landed_on := "",
    artificial := true, atmosphere_thickness := 2, atmosphere_scaling := 3 }

/-- A two-entity snapshot: the habitat docked onto AYSE. -/
def sampleProto : PhysicalState :=
  { entities := [habEnt, ayseEnt], timestamp := 99, srb_time := 7,
    time_acc := 10, reference := "Habitat", target := "AYSE" }

/-- The y-vector body built from `sampleProto` (field-major, n = 2). -/
def sampleBody : List ℚ :=
  [10, 30, 20, 40, 1, 0, 2, 0, 15 / 2, 1,
   3, 0, 50, 60, 1 / 2, 0, 1, -1, 0, 0]

/-- The normalized y-vector of the state built from `sampleProto`: the
habitat's 7.5 rad heading is reduced modulo `two_pi`. -/
def sampleArray : List ℚ :=
  [10, 30, 20, 40, 1, 0, 2, 0, 15 / 2 - two_pi, 1,
   3, 0, 50, 60, 1 / 2, 0, 1, -1, 0, 0, 7, 10]

/-- The state `PhysicsState(None, sampleProto)`. -/
def sampleState : PhysicsState :=
  { proto_state := sampleProto
    n := 2
    entity_names := ["Habitat", "AYSE"]
    array_rep := sampleArray
    entities_with_atmospheres := [1] }

/-- A replacement entity record with distinctive values (test fixture). -/
def recB : EntityRec :=
  { name := "Replacement", x := 77, y := 78, vx := 79, vy := 80, r := 81,
    mass := 999, heading := 1, spin := 82, fuel := 83, throttle := 84,
    landed_on := "", broken := true, artificial := false }

/-- A snapshot containing only the AYSE entity. -/
def ayseProto : PhysicalState :=
  { entities := [ayseEnt], srb_time := 5, time_acc := 1 }

/-- The state `PhysicsState(None, ayseProto)`. -/
def ayseState : PhysicsState :=
  { proto_state := ayseProto
    n := 1
    entity_names := ["AYSE"]
    array_rep := [30, 40, 0, 0, 1, 0, 60, 0, -1, 0, 5, 1]
    entities_with_atmospheres := [0] }

/-- A one-entity snapshot used for buffer-ingestion fixtures. -/
def proto1 : PhysicalState :=
  { entities := [{ name := "Probe" }], srb_time := 0, time_acc := 1 }

/-- A well-shaped y-vector for `proto1` (n = 1, k = 10) carrying a 7.5 rad
heading in the heading slot. -/
def y75 : List ℚ :=
  [0, 0, 0, 0, 15 / 2, 0, 0, 0, -1, 0, 7, 10]

/-- The state `PhysicsState(y75, proto1)`, written exactly in the shape the
constructor produces. -/
def s75 : PhysicsState :=
  { proto_state := { proto1 with srb_time := y75.getD (y75.length - 2) 0,
                                 time_acc := y75.getD (y75.length - 1) 0 }
    n := proto1.entities.length
    entity_names := proto1.entities.map EntityRec.name
    array_rep := normalizeHeading proto1.entities.length y75
    entities_with_atmospheres := atmosphereIndices proto1.entities }

/-! ### Total mirrors of the fallible conversions, for valid inputs -/

/-- The landed-on index actually stored for a resolvable name: the sentinel
for the empty name, the first index of the name otherwise (junk 0 when the
name is absent, a case that only arises when `name_to_index` raises). -/
def landedIdx (names : List String) (nm : String) : ℤ :=
  if nm = "" then NO_INDEX else (((listIndex? nm names).getD 0 : ℕ) : ℤ)

/-- Total mirror of `mutableValue` on resolvable inputs. -/
def mutableValueT (names : List String) (e : EntityRec) (f : Field) : ℚ :=
  if f = Field.landed_on then ((landedIdx names e.landed_on : ℤ) : ℚ)
  else numericValue e f

/-! ### Generic list and arithmetic helper lemmas -/

theorem getD_set_self (l : List ℚ) (v : ℚ) : ∀ i : ℕ, i < l.length →
    (l.set i v).getD i 0 = v := by
  induction l with
  | nil => intro i h; simp at h
  | cons a rest ih =>
    intro i h
    cases i with
    | zero => rfl
    | succ j => exact ih j (by simpa using h)

theorem getD_set_ne (l : List ℚ) (v : ℚ) : ∀ i j : ℕ, i ≠ j →
    (l.set i v).getD j 0 = l.getD j 0 := by
  induction l with
  | nil => intro i j _; cases i <;> rfl
  | cons a rest ih =>
    intro i j hne
    cases i with
    | zero =>
      cases j with
      | zero => exact absurd rfl hne
      | succ _ => rfl
    | succ i' =>
      cases j with
      | zero => rfl
      | succ j' => exact ih i' j' (by omega)

theorem getD_ge_length (l : List ℚ) : ∀ i : ℕ, l.length ≤ i → l.getD i 0 = 0 := by
  induction l with
  | nil => intro i _; cases i <;> rfl
  | cons a rest ih =>
    intro i h
    cases i with
    | zero => simp at h
    | succ j => exact ih j (by simpa using h)

theorem list_eq_of_getD {α : Type} (d : α) :
    ∀ l1 l2 : List α, l1.length = l2.length →
      (∀ i : ℕ, i < l1.length → l1.getD i d = l2.getD i d) → l1 = l2 := by
  intro l1
  induction l1 with
  | nil =>
    intro l2 hlen _
    cases l2 with
    | nil => rfl
    | cons b bs => simp at hlen
  | cons a as ih =>
    intro l2 hlen h
    cases l2 with
    | nil => simp at hlen
    | cons b bs =>
      have h0 : a = b := h 0 (by simp)
      have ht : as = bs := by
        refine ih bs (by simpa using hlen) (fun i hi => ?_)
        simpa using h (i + 1) (by simpa using Nat.succ_lt_succ hi)
      rw [h0, ht]

theorem length_mapWithIdx (g : ℕ → ℚ → ℚ) :
    ∀ (k : ℕ) (l : List ℚ), (mapWithIdx g k l).length = l.length := by
  intro k l
  induction l generalizing k with
  | nil => rfl
  | cons a rest ih => simpa [mapWithIdx] using ih (k + 1)

theorem getD_mapWithIdx (g : ℕ → ℚ → ℚ) :
    ∀ (k : ℕ) (l : List ℚ) (i : ℕ), i < l.length →
      (mapWithIdx g k l).getD i 0 = g (k + i) (l.getD i 0) := by
  intro k l
  induction l generalizing k with
  | nil => intro i h; simp at h
  | cons a rest ih =>
    intro i h
    cases i with
    | zero => rfl
    | succ j =>
      have := ih (k + 1) j (by simpa using h)
      simpa [mapWithIdx, Nat.add_assoc, Nat.add_comm 1 j] using this

theorem exMap_ok_length {α β : Type} (g : α → Except StateError β) :
    ∀ (l : List α) (bs : List β), exMap g l = Except.ok bs →
      bs.length = l.length := by
  intro l
  induction l with
  | nil => intro bs h; cases h; rfl
  | cons a rest ih =>
    intro bs h
    unfold exMap at h
    cases hg : g a with
    | error e => rw [hg] at h; cases h
    | ok b =>
      rw [hg] at h
      cases hrest : exMap g rest with
      | error e => rw [hrest] at h; cases h
      | ok bs' =>
        rw [hrest] at h
        cases h
        simpa using ih bs' hrest

theorem exMap_ok_getD {α β : Type} (g : α → Except StateError β) (a0 : α) (b0 : β) :
    ∀ (l : List α) (bs : List β), exMap g l = Except.ok bs →
      ∀ i : ℕ, i < l.length → g (l.getD i a0) = Except.ok (bs.getD i b0) := by
  intro l
  induction l with
  | nil => intro bs _ i h; simp at h
  | cons a rest ih =>
    intro bs h i hi
    unfold exMap at h
    cases hg : g a with
    | error e => rw [hg] at h; cases h
    | ok b =>
      rw [hg] at h
      cases hrest : exMap g rest with
      | error e => rw [hrest] at h; cases h
      | ok bs' =>
        rw [hrest] at h
        cases h
        cases i with
        | zero => simpa using hg
        | succ j => simpa using ih bs' hrest j (by simpa using hi)

theorem exMap_ok_of_forall {α β : Type} (g : α → Except StateError β) :
    ∀ l : List α, (∀ a ∈ l, ∃ b, g a = Except.ok b) →
      ∃ bs, exMap g l = Except.ok bs := by
  intro l
  induction l with
  | nil => intro _; exact ⟨[], rfl⟩
  | cons a rest ih =>
    intro h
    obtain ⟨b, hb⟩ := h a (by simp)
    obtain ⟨bs, hbs⟩ := ih (fun a' ha' => h a' (by simp [ha']))
    exact ⟨b :: bs, by simp [exMap, hb, hbs]⟩

theorem exMap_ok_mem {α β : Type} (g : α → Except StateError β) :
    ∀ (l : List α) (bs : List β), exMap g l = Except.ok bs →
      ∀ b ∈ bs, ∃ a ∈ l, g a = Except.ok b := by
  intro l
  induction l with
  | nil =>
    intro bs h b hb
    cases h
    simp at hb
  | cons a rest ih =>
    intro bs h b hb
    unfold exMap at h
    cases hg : g a with
    | error e => rw [hg] at h; cases h
    | ok b' =>
      rw [hg] at h
      cases hrest : exMap g rest with
      | error e => rw [hrest] at h; cases h
      | ok bs' =>
        rw [hrest] at h
        cases h
        rcases List.mem_cons.mp hb with hb | hb
        · exact ⟨a, by simp, by rw [hg, hb]⟩
        · obtain ⟨a', ha', hga'⟩ := ih bs' hrest b hb
          exact ⟨a', by simp [ha'], hga'⟩

theorem concatBlocks_length (n : ℕ) :
    ∀ blocks : List (List ℚ), (∀ bl ∈ blocks, bl.length = n) →
      (concatBlocks blocks).length = blocks.length * n := by
  intro blocks
  induction blocks with
  | nil => intro _; simp [concatBlocks]
  | cons bl rest ih =>
    intro h
    have hbl : bl.length = n := h bl (by simp)
    have hrest := ih (fun b hb => h b (by simp [hb]))
    simp [concatBlocks, hbl, hrest, Nat.succ_mul, Nat.add_comm]

theorem concatBlocks_getD (n : ℕ) :
    ∀ (blocks : List (List ℚ)) (b i : ℕ), (∀ bl ∈ blocks, bl.length = n) →
      b < blocks.length → i < n →
      (concatBlocks blocks).getD (n * b + i) 0 = (blocks.getD b []).getD i 0 := by
  intro blocks
  induction blocks with
  | nil => intro b i _ hb _; simp at hb
  | cons bl rest ih =>
    intro b i h hb hi
    have hbl : bl.length = n := h bl (by simp)
    cases b with
    | zero =>
      have : n * 0 + i < bl.length := by omega
      simpa [concatBlocks] using List.getD_append bl (concatBlocks rest) 0 _ this
    | succ b' =>
      have hge : bl.length ≤ n * (b' + 1) + i := by
        rw [hbl]; nlinarith
      have := List.getD_append_right bl (concatBlocks rest) 0 (n * (b' + 1) + i) hge
      rw [concatBlocks, this, hbl]
      have harith : n * (b' + 1) + i - n = n * b' + i := by
        have : n * (b' + 1) = n * b' + n := by ring
        omega
      rw [harith]
      exact ih b' i (fun bl' hbl' => h bl' (by simp [hbl'])) (by simpa using hb) hi

theorem two_pi_pos : 0 < two_pi := by norm_num [two_pi]

theorem qmod_nonneg (a b : ℚ) (hb : 0 < b) : 0 ≤ qmod a b := by
  have h1 : (⌊a / b⌋ : ℚ) ≤ a / b := Int.floor_le _
  have hbne : b ≠ 0 := ne_of_gt hb
  have : b * (⌊a / b⌋ : ℚ) ≤ b * (a / b) :=
    mul_le_mul_of_nonneg_left h1 (le_of_lt hb)
  rw [mul_div_cancel₀ a hbne] at this
  unfold qmod
  linarith

theorem qmod_lt (a b : ℚ) (hb : 0 < b) : qmod a b < b := by
  have h2 : a / b < (⌊a / b⌋ : ℚ) + 1 := Int.lt_floor_add_one _
  have hbne : b ≠ 0 := ne_of_gt hb
  have : b * (a / b) < b * ((⌊a / b⌋ : ℚ) + 1) :=
    (mul_lt_mul_left hb).mpr h2
  rw [mul_div_cancel₀ a hbne] at this
  unfold qmod
  nlinarith

theorem qmod_idem (a b : ℚ) (hb : 0 < b) : qmod (qmod a b) b = qmod a b := by
  have h0 : 0 ≤ qmod a b := qmod_nonneg a b hb
  have h1 : qmod a b < b := qmod_lt a b hb
  have hfloor : ⌊qmod a b / b⌋ = 0 := by
    rw [Int.floor_eq_zero_iff]
    constructor
    · exact div_nonneg h0 (le_of_lt hb)
    · rw [div_lt_one hb]; exact h1
  show qmod a b - b * ((⌊qmod a b / b⌋ : ℤ) : ℚ) = qmod a b
  rw [hfloor]
  simp

theorem pyInt_intCast (z : ℤ) : pyInt ((z : ℤ) : ℚ) = z := by
  unfold pyInt
  by_cases h : ((z : ℤ) : ℚ) < 0
  · simp [h, Int.ceil_intCast]
  · simp [h, Int.floor_intCast]

theorem listIndex?_eq_none (target : String) :
    ∀ names : List String, listIndex? target names = none ↔ target ∉ names := by
  intro names
  induction names with
  | nil => simp [listIndex?]
  | cons s rest ih =>
    by_cases hs : s = target
    · simp [listIndex?, hs]
    · simp [listIndex?, hs, ih, Ne.symm hs]

theorem listIndex?_some_lt (target : String) :
    ∀ (names : List String) (i : ℕ), listIndex? target names = some i →
      i < names.length := by
  intro names
  induction names with
  | nil => intro i h; cases h
  | cons s rest ih =>
    intro i h
    unfold listIndex? at h
    by_cases hs : s = target
    · rw [if_pos hs] at h; cases h; simp
    · rw [if_neg hs] at h
      cases hrest : listIndex? target rest with
      | none => rw [hrest] at h; cases h
      | some j =>
        rw [hrest] at h
        cases h
        have := ih j hrest
        simpa using Nat.succ_lt_succ this

theorem listIndex?_some_getD (target : String) :
    ∀ (names : List String) (i : ℕ), listIndex? target names = some i →
      names.getD i "" = target := by
  intro names
  induction names with
  | nil => intro i h; cases h
  | cons s rest ih =>
    intro i h
    unfold listIndex? at h
    by_cases hs : s = target
    · rw [if_pos hs] at h; cases h; simpa using hs
    · rw [if_neg hs] at h
      cases hrest : listIndex? target rest with
      | none => rw [hrest] at h; cases h
      | some j =>
        rw [hrest] at h
        cases h
        simpa using ih j hrest

theorem listIndex?_mem (target : String) (names : List String)
    (h : target ∈ names) : ∃ i, listIndex? target names = some i := by
  cases hidx : listIndex? target names with
  | none => exact absurd h ((listIndex?_eq_none target names).mp hidx)
  | some i => exact ⟨i, rfl⟩

/-! ### Schema facts (decidable over the finite field type) -/

theorem num_mutable_eq : NUM_MUTABLE_FIELDS = 10 := by decide

theorem n_singular_eq : N_SINGULAR_ELEMENTS = 2 := rfl

theorem mutable_iff (f : Field) :
    f.unchanging = false ↔ f ∈ PER_ENTITY_MUTABLE_FIELDS := by
  revert f; decide

theorem blockIndex_lt (f : Field) (hf : f ∈ PER_ENTITY_MUTABLE_FIELDS) :
    f.blockIndex < NUM_MUTABLE_FIELDS := by
  revert hf; revert f; decide

theorem blockIndex_getD (f : Field) (hf : f ∈ PER_ENTITY_MUTABLE_FIELDS) :
    PER_ENTITY_MUTABLE_FIELDS.getD f.blockIndex Field.x = f := by
  revert hf; revert f; decide

theorem heading_blockIndex : Field.heading.blockIndex = 4 := by decide

theorem landed_on_blockIndex : Field.landed_on.blockIndex = 8 := by decide

theorem broken_blockIndex : Field.broken.blockIndex = 9 := by decide

theorem slot_heading_iff (b i n : ℕ) (hb : b < 10) (hi : i < n) :
    (4 * n ≤ n * b + i ∧ n * b + i < 5 * n) ↔ b = 4 := by
  interval_cases b <;> omega

theorem name_to_index_ok (names : List String) (nm : String)
    (h : nm = "" ∨ nm ∈ names) :
    name_to_index names nm = Except.ok (landedIdx names nm) := by
  rcases h with h | h
  · simp [name_to_index, landedIdx, h, NO_INDEX]
  · by_cases he : nm = ""
    · simp [name_to_index, landedIdx, he, NO_INDEX]
    · obtain ⟨i, hi⟩ := listIndex?_mem nm names h
      simp [name_to_index, landedIdx, he, hi]

theorem name_to_index_absent (names : List String) (nm : String)
    (hne : nm ≠ "") (h : nm ∉ names) :
    name_to_index names nm = Except.error (StateError.noEntity nm) := by
  have : listIndex? nm names = none := (listIndex?_eq_none nm names).mpr h
  simp [name_to_index, hne, this]

theorem mutableValue_ok (names : List String) (e : EntityRec) (f : Field)
    (h : e.landed_on = "" ∨ e.landed_on ∈ names) :
    mutableValue names e f = Except.ok (mutableValueT names e f) := by
  by_cases hf : f = Field.landed_on
  · simp [mutableValue, mutableValueT, hf, name_to_index_ok names e.landed_on h]
  · simp [mutableValue, mutableValueT, hf]

theorem mutableValue_ok_notlanded (names : List String) (e : EntityRec)
    (f : Field) (hf : f ≠ Field.landed_on) :
    mutableValue names e f = Except.ok (numericValue e f) := by
  simp [mutableValue, hf]

/-! ### Characterization of the y-vector body built from a snapshot -/

theorem buildBufferBody_blocks (names : List String) (entities : List EntityRec)
    (body : List ℚ)
    (h : buildBufferBody names entities = Except.ok body) :
    ∃ blocks, exMap (fieldBlock names entities) PER_ENTITY_MUTABLE_FIELDS
        = Except.ok blocks ∧
      body = concatBlocks blocks ∧
      blocks.length = NUM_MUTABLE_FIELDS ∧
      ∀ bl ∈ blocks, bl.length = entities.length := by
  unfold buildBufferBody at h
  cases hblocks : exMap (fieldBlock names entities) PER_ENTITY_MUTABLE_FIELDS with
  | error e => rw [hblocks] at h; cases h
  | ok blocks =>
    rw [hblocks] at h
    cases h
    refine ⟨blocks, rfl, rfl, exMap_ok_length _ _ _ hblocks, ?_⟩
    intro bl hbl
    obtain ⟨f, _, hfb⟩ := exMap_ok_mem _ _ _ hblocks bl hbl
    exact exMap_ok_length _ _ _ hfb

theorem buildBufferBody_len (names : List String) (entities : List EntityRec)
    (body : List ℚ)
    (h : buildBufferBody names entities = Except.ok body) :
    body.length = NUM_MUTABLE_FIELDS * entities.length := by
  obtain ⟨blocks, _, hbody, hlen, hall⟩ := buildBufferBody_blocks _ _ _ h
  rw [hbody, concatBlocks_length entities.length blocks hall, hlen]

theorem buildBufferBody_getD (names : List String) (entities : List EntityRec)
    (body : List ℚ)
    (h : buildBufferBody names entities = Except.ok body)
    (f : Field) (hf : f ∈ PER_ENTITY_MUTABLE_FIELDS)
    (i : ℕ) (hi : i < entities.length) :
    mutableValue names (entities.getD i default) f
      = Except.ok (body.getD (entities.length * f.blockIndex + i) 0) := by
  obtain ⟨blocks, hblocks, hbody, hlen, hall⟩ := buildBufferBody_blocks _ _ _ h
  have hbi : f.blockIndex < blocks.length := by
    rw [hlen]; exact blockIndex_lt f hf
  have houter := exMap_ok_getD (fieldBlock names entities) Field.x []
    PER_ENTITY_MUTABLE_FIELDS blocks hblocks f.blockIndex
    (blockIndex_lt f hf)
  rw [blockIndex_getD f hf] at houter
  have hinner := exMap_ok_getD (fun e => mutableValue names e f) default 0
    entities (blocks.getD f.blockIndex []) houter i hi
  rw [hbody, concatBlocks_getD entities.length blocks f.blockIndex i hall hbi hi]
  exact hinner

theorem buildBufferBody_of_valid (names : List String) (entities : List EntityRec)
    (hval : ∀ e ∈ entities, e.landed_on = "" ∨ e.landed_on ∈ names) :
    ∃ body, buildBufferBody names entities = Except.ok body := by
  have hblock : ∀ f ∈ PER_ENTITY_MUTABLE_FIELDS,
      ∃ bl, fieldBlock names entities f = Except.ok bl := by
    intro f _
    exact exMap_ok_of_forall _ entities
      (fun e he => ⟨mutableValueT names e f, mutableValue_ok names e f (hval e he)⟩)
  obtain ⟨blocks, hblocks⟩ :=
    exMap_ok_of_forall (fieldBlock names entities) PER_ENTITY_MUTABLE_FIELDS hblock
  exact ⟨concatBlocks blocks, by simp [buildBufferBody, hblocks]⟩

/-! ### Characterization of the constructor -/

theorem length_normalizeHeading (n : ℕ) (buf : List ℚ) :
    (normalizeHeading n buf).length = buf.length := by
  unfold normalizeHeading
  exact length_mapWithIdx _ 0 buf

theorem normalizeHeading_eval (n : ℕ) (buf : List ℚ) :
    normalizeHeading n buf
      = mapWithIdx (fun idx v =>
          if 4 * n ≤ idx ∧ idx < 5 * n then qmod v two_pi else v) 0 buf := by
  unfold normalizeHeading
  rw [heading_blockIndex]

theorem normalizeHeading_getD (n : ℕ) (buf : List ℚ) (i : ℕ)
    (hi : i < buf.length) :
    (normalizeHeading n buf).getD i 0
      = if 4 * n ≤ i ∧ i < 5 * n then qmod (buf.getD i 0) two_pi
        else buf.getD i 0 := by
  unfold normalizeHeading
  rw [getD_mapWithIdx _ 0 buf i hi]
  simp only [Nat.zero_add, heading_blockIndex]

theorem initFinish_ok_of_len (p : PhysicalState) (nn : ℕ) (names : List String)
    (buf : List ℚ)
    (hlen : buf.length = NUM_MUTABLE_FIELDS * nn + N_SINGULAR_ELEMENTS) :
    initFinish p nn names buf = Except.ok
      { proto_state := p
        n := nn
        entity_names := names
        array_rep := normalizeHeading nn buf
        entities_with_atmospheres := atmosphereIndices p.entities } := by
  rw [num_mutable_eq, n_singular_eq] at hlen
  have h1 : (buf.length - N_SINGULAR_ELEMENTS) % NUM_MUTABLE_FIELDS = 0 := by
    rw [num_mutable_eq, n_singular_eq]; omega
  have h2 : (buf.length - N_SINGULAR_ELEMENTS) / NUM_MUTABLE_FIELDS = nn := by
    rw [num_mutable_eq, n_singular_eq]; omega
  simp [initFinish, h1, h2]

theorem initFinish_ok_inv (p : PhysicalState) (nn : ℕ) (names : List String)
    (buf : List ℚ) (s : PhysicsState)
    (h : initFinish p nn names buf = Except.ok s) :
    (buf.length - 2) % 10 = 0 ∧ (buf.length - 2) / 10 = nn ∧
      s = { proto_state := p
            n := nn
            entity_names := names
            array_rep := normalizeHeading nn buf
            entities_with_atmospheres := atmosphereIndices p.entities } := by
  unfold initFinish at h
  rw [num_mutable_eq, n_singular_eq] at h
  by_cases h1 : (buf.length - 2) % 10 = 0
  · rw [if_neg (by simpa using h1)] at h
    by_cases h2 : (buf.length - 2) / 10 = nn
    · rw [if_neg (by simpa using h2)] at h
      cases h
      exact ⟨h1, h2, rfl⟩
    · rw [if_pos (by simpa using h2)] at h
      cases h
  · rw [if_pos (by simpa using h1)] at h
    cases h

theorem init_none_char (S : PhysicalState) (s : PhysicsState)
    (h : PhysicsState.init none S = Except.ok s) :
    ∃ body,
      buildBufferBody (S.entities.map EntityRec.name) S.entities
        = Except.ok body ∧
      body.length = NUM_MUTABLE_FIELDS * S.entities.length ∧
      s = { proto_state := S
            n := S.entities.length
            entity_names := S.entities.map EntityRec.name
            array_rep := normalizeHeading S.entities.length
              (body ++ [S.srb_time, S.time_acc])
            entities_with_atmospheres := atmosphereIndices S.entities } := by
  simp only [PhysicsState.init] at h
  cases hbody : buildBufferBody (S.entities.map EntityRec.name) S.entities with
  | error e => rw [hbody] at h; cases h
  | ok body =>
    rw [hbody] at h
    obtain ⟨_, _, hs⟩ := initFinish_ok_inv _ _ _ _ _ h
    exact ⟨body, rfl, buildBufferBody_len _ _ _ hbody, hs⟩

theorem init_none_of_valid (S : PhysicalState)
    (hval : ∀ e ∈ S.entities,
      e.landed_on = "" ∨ e.landed_on ∈ S.entities.map EntityRec.name) :
    ∃ s, PhysicsState.init none S = Except.ok s := by
  obtain ⟨body, hbody⟩ :=
    buildBufferBody_of_valid (S.entities.map EntityRec.name) S.entities hval
  have hlen := buildBufferBody_len _ _ _ hbody
  have hfin := initFinish_ok_of_len S S.entities.length
    (S.entities.map EntityRec.name) (body ++ [S.srb_time, S.time_acc])
    (by simp [hlen, n_singular_eq])
  refine ⟨{ proto_state := S
            n := S.entities.length
            entity_names := S.entities.map EntityRec.name
            array_rep := normalizeHeading S.entities.length
              (body ++ [S.srb_time, S.time_acc])
            entities_with_atmospheres := atmosphereIndices S.entities }, ?_⟩
  simp only [PhysicsState.init, hbody]
  exact hfin

theorem init_some_char (S : PhysicalState) (y : List ℚ) (s : PhysicsState)
    (h : PhysicsState.init (some y) S = Except.ok s) :
    y.length = NUM_MUTABLE_FIELDS * S.entities.length + 2 ∧
    s = { proto_state := { S with srb_time := y.getD (y.length - 2) 0,
                                  time_acc := y.getD (y.length - 1) 0 }
          n := S.entities.length
          entity_names := S.entities.map EntityRec.name
          array_rep := normalizeHeading S.entities.length y
          entities_with_atmospheres := atmosphereIndices S.entities } := by
  simp only [PhysicsState.init] at h
  by_cases hshort : y.length < N_SINGULAR_ELEMENTS
  · rw [if_pos hshort] at h; cases h
  · rw [if_neg hshort] at h
    obtain ⟨h1, h2, hs⟩ := initFinish_ok_inv _ _ _ _ _ h
    rw [n_singular_eq] at hshort
    constructor
    · rw [num_mutable_eq]; omega
    · simpa using hs

theorem init_some_of_len (S : PhysicalState) (y : List ℚ)
    (hlen : y.length = NUM_MUTABLE_FIELDS * S.entities.length + 2) :
    PhysicsState.init (some y) S = Except.ok
      { proto_state := { S with srb_time := y.getD (y.length - 2) 0,
                                time_acc := y.getD (y.length - 1) 0 }
        n := S.entities.length
        entity_names := S.entities.map EntityRec.name
        array_rep := normalizeHeading S.entities.length y
        entities_with_atmospheres := atmosphereIndices S.entities } := by
  have hshort : ¬ y.length < N_SINGULAR_ELEMENTS := by
    rw [num_mutable_eq] at hlen; rw [n_singular_eq]; omega
  have hfin := initFinish_ok_of_len
    { S with srb_time := y.getD (y.length - 2) 0,
             time_acc := y.getD (y.length - 1) 0 }
    S.entities.length (S.entities.map EntityRec.name) y (by simpa using hlen)
  simp only [PhysicsState.init, if_neg hshort]
  simpa using hfin

theorem init_ok_shape (y? : Option (List ℚ)) (S : PhysicalState)
    (s : PhysicsState) (h : PhysicsState.init y? S = Except.ok s) :
    s.n = S.entities.length ∧
    s.entity_names = S.entities.map EntityRec.name ∧
    s.array_rep.length = NUM_MUTABLE_FIELDS * s.n + 2 := by
  cases y? with
  | none =>
    obtain ⟨body, _, hblen, hs⟩ := init_none_char S s h
    subst hs
    refine ⟨rfl, rfl, ?_⟩
    simp [length_normalizeHeading, hblen]
  | some y =>
    obtain ⟨hylen, hs⟩ := init_some_char S y s h
    subst hs
    refine ⟨rfl, rfl, ?_⟩
    simp [length_normalizeHeading, hylen]

theorem blockIndex_eq_four (f : Field) (hf : f ∈ PER_ENTITY_MUTABLE_FIELDS) :
    f.blockIndex = 4 ↔ f = Field.heading := by
  revert hf; revert f; decide

theorem init_none_slot (S : PhysicalState) (s : PhysicsState)
    (h : PhysicsState.init none S = Except.ok s)
    (f : Field) (hf : f ∈ PER_ENTITY_MUTABLE_FIELDS)
    (i : ℕ) (hi : i < S.entities.length) :
    ∃ v, mutableValue (S.entities.map EntityRec.name) (S.entities.getD i default) f
        = Except.ok v ∧
      s.array_rep.getD (S.entities.length * f.blockIndex + i) 0
        = if f = Field.heading then qmod v two_pi else v := by
  obtain ⟨body, hbody, hblen, hs⟩ := init_none_char S s h
  have hslot := buildBufferBody_getD _ _ _ hbody f hf i hi
  refine ⟨body.getD (S.entities.length * f.blockIndex + i) 0, hslot, ?_⟩
  subst hs
  have hb10 : f.blockIndex < 10 := by
    have := blockIndex_lt f hf; rwa [num_mutable_eq] at this
  have hsltlen : S.entities.length * f.blockIndex + i < body.length := by
    rw [hblen, num_mutable_eq]; nlinarith
  have hbuflen : S.entities.length * f.blockIndex + i
      < (body ++ [S.srb_time, S.time_acc]).length := by
    simp; omega
  dsimp only
  rw [normalizeHeading_getD _ _ _ hbuflen, List.getD_append _ _ _ _ hsltlen]
  have hiff : (4 * S.entities.length ≤ S.entities.length * f.blockIndex + i ∧
      S.entities.length * f.blockIndex + i < 5 * S.entities.length)
      ↔ f = Field.heading := by
    rw [slot_heading_iff f.blockIndex i S.entities.length hb10 hi]
    exact blockIndex_eq_four f hf
  rw [if_congr hiff rfl rfl]

theorem init_none_trailing (S : PhysicalState) (s : PhysicsState)
    (h : PhysicsState.init none S = Except.ok s) :
    s.array_rep.getD (NUM_MUTABLE_FIELDS * S.entities.length) 0 = S.srb_time ∧
    s.array_rep.getD (NUM_MUTABLE_FIELDS * S.entities.length + 1) 0
      = S.time_acc := by
  obtain ⟨body, hbody, hblen, hs⟩ := init_none_char S s h
  subst hs
  rw [num_mutable_eq] at hblen
  dsimp only
  rw [num_mutable_eq]
  have hlenapp : (body ++ [S.srb_time, S.time_acc]).length
      = 10 * S.entities.length + 2 := by simp [hblen]
  constructor
  · rw [normalizeHeading_getD _ _ _ (by omega),
      List.getD_append_right _ _ _ _ (by omega), hblen]
    rw [if_neg (by omega)]
    simp [Nat.sub_self]
  · rw [normalizeHeading_getD _ _ _ (by omega),
      List.getD_append_right _ _ _ _ (by omega), hblen]
    rw [if_neg (by omega)]
    have : 10 * S.entities.length + 1 - 10 * S.entities.length = 1 := by omega
    simp [this]

/-! ### View reads on a state constructed from a snapshot -/

theorem getD_range_map {α : Type} (d : α) (g : ℕ → α) (n i : ℕ) (hi : i < n) :
    ((List.range n).map g).getD i d = g i := by
  induction n generalizing i with
  | zero => omega
  | succ m ih =>
    rcases Nat.lt_or_ge i m with hlt | hge
    · rw [List.range_succ, List.map_append, List.getD_append]
      · exact ih i hlt
      · simpa using hlt
    · have him : i = m := by omega
      subst him
      rw [List.range_succ, List.map_append,
        List.getD_append_right _ _ _ _ (by simp)]
      simp

theorem getD_map_lt {α β : Type} (d : β) (d' : α) (g : α → β) :
    ∀ (l : List α) (i : ℕ), i < l.length →
      (l.map g).getD i d = g (l.getD i d') := by
  intro l
  induction l with
  | nil => intro i h; simp at h
  | cons a rest ih =>
    intro i h
    cases i with
    | zero => rfl
    | succ j => exact ih j (by simpa using h)

theorem listIndex?_some_mem (target : String) :
    ∀ (names : List String) (i : ℕ), listIndex? target names = some i →
      target ∈ names := by
  intro names
  induction names with
  | nil => intro i h; cases h
  | cons s rest ih =>
    intro i h
    unfold listIndex? at h
    by_cases hs : s = target
    · simp [hs]
    · rw [if_neg hs] at h
      cases hrest : listIndex? target rest with
      | none => rw [hrest] at h; cases h
      | some j => exact List.mem_cons_of_mem s (ih j hrest)

theorem name_to_index_ok_inv (names : List String) (nm : String) (idx : ℤ)
    (h : name_to_index names nm = Except.ok idx) :
    (nm = "" ∧ idx = NO_INDEX) ∨
    (∃ k : ℕ, listIndex? nm names = some k ∧ idx = (k : ℤ)) := by
  unfold name_to_index at h
  by_cases he : nm = ""
  · rw [if_neg (by simp [he])] at h
    cases h
    exact Or.inl ⟨he, rfl⟩
  · rw [if_pos (by simp [he])] at h
    cases hli : listIndex? nm names with
    | none => rw [hli] at h; cases h
    | some k =>
      rw [hli] at h
      cases h
      exact Or.inr ⟨k, rfl, rfl⟩

theorem init_none_viewFloat (S : PhysicalState) (s : PhysicsState)
    (h : PhysicsState.init none S = Except.ok s)
    (f : Field) (hf : f ∈ PER_ENTITY_MUTABLE_FIELDS) (hfl : f ≠ Field.landed_on)
    (i : ℕ) (hi : i < S.entities.length) :
    s.viewFloat i f
      = if f = Field.heading
        then qmod (numericValue (S.entities.getD i default) f) two_pi
        else numericValue (S.entities.getD i default) f := by
  obtain ⟨hn, _, _⟩ := init_ok_shape none S s h
  obtain ⟨v, hv, hslot⟩ := init_none_slot S s h f hf i hi
  rw [mutableValue_ok_notlanded _ _ _ hfl] at hv
  cases hv
  unfold PhysicsState.viewFloat
  rw [hn]
  exact hslot

theorem init_none_viewLanded (S : PhysicalState) (s : PhysicsState)
    (h : PhysicsState.init none S = Except.ok s)
    (i : ℕ) (hi : i < S.entities.length) :
    s.viewLandedOn i = (S.entities.getD i default).landed_on := by
  obtain ⟨hn, hnames, _⟩ := init_ok_shape none S s h
  obtain ⟨v, hv, hslot⟩ := init_none_slot S s h Field.landed_on (by decide) i hi
  rw [if_neg (by decide)] at hslot
  unfold mutableValue at hv
  rw [if_pos rfl] at hv
  cases hni : name_to_index (S.entities.map EntityRec.name)
      (S.entities.getD i default).landed_on with
  | error e => rw [hni] at hv; cases hv
  | ok idx =>
    rw [hni] at hv
    cases hv
    unfold PhysicsState.viewLandedOn
    rw [hn, hslot, pyInt_intCast]
    rcases name_to_index_ok_inv _ _ _ hni with ⟨hemp, hidx⟩ | ⟨k, hk, hidx⟩
    · rw [hidx, if_pos rfl, hemp]
    · have hkge : ¬ ((k : ℤ) = NO_INDEX) := by
        unfold NO_INDEX
        omega
      rw [hidx, if_neg hkge, hnames, Int.toNat_natCast]
      exact listIndex?_some_getD _ _ _ hk

theorem init_none_viewBroken (S : PhysicalState) (s : PhysicsState)
    (h : PhysicsState.init none S = Except.ok s)
    (i : ℕ) (hi : i < S.entities.length) :
    s.viewBroken i = (S.entities.getD i default).broken := by
  obtain ⟨hn, _, _⟩ := init_ok_shape none S s h
  obtain ⟨v, hv, hslot⟩ := init_none_slot S s h Field.broken (by decide) i hi
  rw [mutableValue_ok_notlanded _ _ _ (by decide)] at hv
  cases hv
  rw [if_neg (by decide)] at hslot
  unfold PhysicsState.viewBroken
  rw [hn, hslot]
  unfold numericValue
  cases hb : (S.entities.getD i default).broken <;> simp

/-! ### Small-step evaluation lemmas for the generated accessors -/

theorem PEMF_eq : PER_ENTITY_MUTABLE_FIELDS =
    [Field.x, Field.y, Field.vx, Field.vy, Field.heading, Field.spin,
     Field.fuel, Field.throttle, Field.landed_on, Field.broken] := by decide

theorem blockIndex_x : Field.x.blockIndex = 0 := by decide
theorem blockIndex_y : Field.y.blockIndex = 1 := by decide
theorem blockIndex_vx : Field.vx.blockIndex = 2 := by decide
theorem blockIndex_vy : Field.vy.blockIndex = 3 := by decide
theorem blockIndex_spin : Field.spin.blockIndex = 5 := by decide
theorem blockIndex_fuel : Field.fuel.blockIndex = 6 := by decide
theorem blockIndex_throttle : Field.throttle.blockIndex = 7 := by decide

theorem mutableValue_x (names : List String) (e : EntityRec) :
    mutableValue names e Field.x = Except.ok e.x := rfl
theorem mutableValue_y (names : List String) (e : EntityRec) :
    mutableValue names e Field.y = Except.ok e.y := rfl
theorem mutableValue_vx (names : List String) (e : EntityRec) :
    mutableValue names e Field.vx = Except.ok e.vx := rfl
theorem mutableValue_vy (names : List String) (e : EntityRec) :
    mutableValue names e Field.vy = Except.ok e.vy := rfl
theorem mutableValue_heading (names : List String) (e : EntityRec) :
    mutableValue names e Field.heading = Except.ok e.heading := rfl
theorem mutableValue_spin (names : List String) (e : EntityRec) :
    mutableValue names e Field.spin = Except.ok e.spin := rfl
theorem mutableValue_fuel (names : List String) (e : EntityRec) :
    mutableValue names e Field.fuel = Except.ok e.fuel := rfl
theorem mutableValue_throttle (names : List String) (e : EntityRec) :
    mutableValue names e Field.throttle = Except.ok e.throttle := rfl
theorem mutableValue_broken (names : List String) (e : EntityRec) :
    mutableValue names e Field.broken
      = Except.ok (if e.broken then 1 else 0) := rfl
theorem mutableValue_landed (names : List String) (e : EntityRec) :
    mutableValue names e Field.landed_on
      = match name_to_index names e.landed_on with
        | Except.ok idx => Except.ok ((idx : ℤ) : ℚ)
        | Except.error err => Except.error err := rfl

theorem viewGet_unchanging (s : PhysicsState) (i : ℕ) (f : Field)
    (hf : f.unchanging = true) :
    s.viewGet i f = (s.proto_state.entities.getD i default).get f := by
  unfold PhysicsState.viewGet
  rw [if_pos hf]

theorem viewGet_float (s : PhysicsState) (i : ℕ) (f : Field)
    (h1 : f.unchanging = false) (h2 : f.isFloatType = true) :
    s.viewGet i f = Value.num (s.viewFloat i f) := by
  unfold PhysicsState.viewGet
  rw [if_neg (by simp [h1]), if_pos h2]

theorem viewGet_broken (s : PhysicsState) (i : ℕ) :
    s.viewGet i Field.broken = Value.bool (s.viewBroken i) := rfl

theorem viewGet_landed (s : PhysicsState) (i : ℕ) :
    s.viewGet i Field.landed_on = Value.str (s.viewLandedOn i) := rfl

theorem viewSet_unchanging (s : PhysicsState) (i : ℕ) (f : Field) (v : Value)
    (e2 : EntityRec) (hf : f.unchanging = true)
    (hset : (s.proto_state.entities.getD i default).setVal f v = some e2) :
    s.viewSet i f v = Except.ok { s with proto_state :=
      { s.proto_state with entities := s.proto_state.entities.set i e2 } } := by
  unfold PhysicsState.viewSet
  rw [if_pos hf, hset]

theorem viewSet_float (s : PhysicsState) (i : ℕ) (f : Field) (q : ℚ)
    (h1 : f.unchanging = false) (h2 : f.isFloatType = true) :
    s.viewSet i f (Value.num q) = Except.ok (s.setFloat i f q) := by
  unfold PhysicsState.viewSet
  rw [if_neg (by simp [h1]), if_pos h2]

theorem viewSet_landed (s : PhysicsState) (i : ℕ) (nm : String) :
    s.viewSet i Field.landed_on (Value.str nm) = s.setLandedOn i nm := rfl

theorem setLandedOn_ok (s : PhysicsState) (i : ℕ) (nm : String) (li : ℤ)
    (h : name_to_index s.entity_names nm = Except.ok li) :
    s.setLandedOn i nm
      = Except.ok (s.setFloat i Field.landed_on ((li : ℤ) : ℚ)) := by
  unfold PhysicsState.setLandedOn
  rw [h]

theorem setLandedOn_error (s : PhysicsState) (i : ℕ) (nm : String)
    (err : StateError) (h : name_to_index s.entity_names nm = Except.error err) :
    s.setLandedOn i nm = Except.error err := by
  unfold PhysicsState.setLandedOn
  rw [h]

/-! ### Evaluation of the concrete fixtures -/

theorem sample_body_eq :
    buildBufferBody ["Habitat", "AYSE"] sampleProto.entities
      = Except.ok sampleBody := by
  have h1 : name_to_index ["Habitat", "AYSE"] "AYSE" = Except.ok 1 := by decide
  have h2 : name_to_index ["Habitat", "AYSE"] "" = Except.ok (-1) := by decide
  norm_num [buildBufferBody, fieldBlock, exMap, PEMF_eq, sampleProto, habEnt,
    ayseEnt, mutableValue_x, mutableValue_y, mutableValue_vx, mutableValue_vy,
    mutableValue_heading, mutableValue_spin, mutableValue_fuel,
    mutableValue_throttle, mutableValue_broken, mutableValue_landed,
    h1, h2, concatBlocks, sampleBody]

theorem sample_array_eq :
    normalizeHeading 2 (sampleBody ++ [sampleProto.srb_time, sampleProto.time_acc])
      = sampleArray := by
  norm_num [normalizeHeading_eval, mapWithIdx, sampleBody, sampleProto,
    sampleArray, qmod, two_pi]

theorem sample_init :
    PhysicsState.init none sampleProto = Except.ok sampleState := by
  have hnames : sampleProto.entities.map EntityRec.name = ["Habitat", "AYSE"] := rfl
  have hlen : (sampleBody ++ [sampleProto.srb_time, sampleProto.time_acc]).length
      = NUM_MUTABLE_FIELDS * sampleProto.entities.length + N_SINGULAR_ELEMENTS := by
    decide
  have hatmos : atmosphereIndices sampleProto.entities = [1] := by decide
  have hn2 : sampleProto.entities.length = 2 := rfl
  simp only [PhysicsState.init, hnames, sample_body_eq]
  rw [initFinish_ok_of_len _ _ _ _ hlen, hn2, sample_array_eq, hatmos]
  rfl

theorem ayse_body_eq :
    buildBufferBody ["AYSE"] ayseProto.entities
      = Except.ok [30, 40, 0, 0, 1, 0, 60, 0, -1, 0] := by
  have h2 : name_to_index ["AYSE"] "" = Except.ok (-1) := by decide
  norm_num [buildBufferBody, fieldBlock, exMap, PEMF_eq, ayseProto, ayseEnt,
    mutableValue_x, mutableValue_y, mutableValue_vx, mutableValue_vy,
    mutableValue_heading, mutableValue_spin, mutableValue_fuel,
    mutableValue_throttle, mutableValue_broken, mutableValue_landed,
    h2, concatBlocks]

theorem ayse_array_eq :
    normalizeHeading 1 ([30, 40, 0, 0, 1, 0, 60, 0, -1, 0]
        ++ [ayseProto.srb_time, ayseProto.time_acc])
      = [30, 40, 0, 0, 1, 0, 60, 0, -1, 0, 5, 1] := by
  norm_num [normalizeHeading_eval, mapWithIdx, ayseProto, qmod, two_pi]

theorem ayse_init :
    PhysicsState.init none ayseProto = Except.ok ayseState := by
  have hnames : ayseProto.entities.map EntityRec.name = ["AYSE"] := rfl
  have hlen : (([30, 40, 0, 0, 1, 0, 60, 0, -1, 0] : List ℚ)
        ++ [ayseProto.srb_time, ayseProto.time_acc]).length
      = NUM_MUTABLE_FIELDS * ayseProto.entities.length + N_SINGULAR_ELEMENTS := by
    decide
  have hatmos : atmosphereIndices ayseProto.entities = [0] := by decide
  have hn1 : ayseProto.entities.length = 1 := rfl
  simp only [PhysicsState.init, hnames, ayse_body_eq]
  rw [initFinish_ok_of_len _ _ _ _ hlen, hn1, ayse_array_eq, hatmos]
  rfl

theorem s75_init :
    PhysicsState.init (some y75) proto1 = Except.ok s75 :=
  init_some_of_len proto1 y75 (by decide)

/-! ### The claims -/

/-- C2: for every state, entity index `i < n`, and schema field `f`, the
Entity View accessor addresses exactly one location.  If `f` is unchanging,
reads return the owned snapshot's entity-`i` value and writes replace exactly
that snapshot record; if `f` is a mutable float64 field, reads return exactly
buffer slot `block(f)·n + i` and writes set exactly that slot. -/
theorem C2_view_accessor_addressing (s : PhysicsState) (i : ℕ) (f : Field)
    (_hi : i < s.n) :
    (f.unchanging = true →
      s.viewGet i f = (s.proto_state.entities.getD i default).get f ∧
      ∀ v e2, (s.proto_state.entities.getD i default).setVal f v = some e2 →
        s.viewSet i f v = Except.ok { s with proto_state :=
          { s.proto_state with entities := s.proto_state.entities.set i e2 } }) ∧
    (f.unchanging = false → f.isFloatType = true →
      s.viewGet i f = Value.num (s.array_rep.getD (f.blockIndex * s.n + i) 0) ∧
      ∀ q : ℚ, s.viewSet i f (Value.num q) = Except.ok
        { s with array_rep := s.array_rep.set (f.blockIndex * s.n + i) q }) := by
  constructor
  · intro hf
    exact ⟨viewGet_unchanging s i f hf,
      fun v e2 hset => viewSet_unchanging s i f v e2 hf hset⟩
  · intro h1 h2
    constructor
    · rw [viewGet_float s i f h1 h2]
      unfold PhysicsState.viewFloat
      rw [Nat.mul_comm]
    · intro q
      rw [viewSet_float s i f q h1 h2]
      unfold PhysicsState.setFloat
      rw [Nat.mul_comm]

theorem C2_witness :
    sampleState.viewGet 0 Field.mass
        = (sampleState.proto_state.entities.getD 0 default).get Field.mass ∧
    sampleState.viewGet 0 Field.x
        = Value.num (sampleState.array_rep.getD
            (Field.x.blockIndex * sampleState.n + 0) 0) :=
  ⟨((C2_view_accessor_addressing sampleState 0 Field.mass (by decide)).1 rfl).1,
   ((C2_view_accessor_addressing sampleState 0 Field.x (by decide)).2 rfl rfl).1⟩

/-- C4: constructing from a snapshot with n entities plus a buffer fails
whenever the buffer length differs from n·k + 2, and every successfully
constructed state satisfies the length invariant
`(length − 2) mod k = 0 ∧ (length − 2) / k = n`. -/
theorem C4_shape_validation (S : PhysicalState) :
    (∀ y : List ℚ, y.length ≠ NUM_MUTABLE_FIELDS * S.entities.length + 2 →
      ∃ err, PhysicsState.init (some y) S = Except.error err) ∧
    (∀ (y? : Option (List ℚ)) (s : PhysicsState),
      PhysicsState.init y? S = Except.ok s →
      s.array_rep.length = NUM_MUTABLE_FIELDS * s.n + 2 ∧
      (s.array_rep.length - 2) % NUM_MUTABLE_FIELDS = 0 ∧
      (s.array_rep.length - 2) / NUM_MUTABLE_FIELDS = s.n ∧
      s.n = S.entities.length) := by
  constructor
  · intro y hy
    cases hinit : PhysicsState.init (some y) S with
    | error e => exact ⟨e, rfl⟩
    | ok s =>
      obtain ⟨hlen, _⟩ := init_some_char S y s hinit
      exact absurd hlen hy
  · intro y? s h
    obtain ⟨hn, _, hlen⟩ := init_ok_shape y? S s h
    refine ⟨hlen, ?_, ?_, hn⟩ <;> rw [hlen, num_mutable_eq] <;> omega

theorem C4_witness :
    (∃ err, PhysicsState.init (some []) proto1 = Except.error err) ∧
    (s75.array_rep.length = NUM_MUTABLE_FIELDS * s75.n + 2 ∧
      (s75.array_rep.length - 2) % NUM_MUTABLE_FIELDS = 0 ∧
      (s75.array_rep.length - 2) / NUM_MUTABLE_FIELDS = s75.n ∧
      s75.n = proto1.entities.length) :=
  ⟨(C4_shape_validation proto1).1 [] (by decide),
   (C4_shape_validation proto1).2 (some y75) s75 s75_init⟩

/-- C7: writing a non-empty name that is not in the entity list to an
entity's landed-on field fails with the no-such-entity error; since the name
is resolved before the buffer slot is assigned, no successor state (and in
particular no modified buffer) is produced. -/
theorem C7_landed_write_absent_name (s : PhysicsState) (i : ℕ) (w : String)
    (hw : w ≠ "") (habs : w ∉ s.entity_names) :
    s.viewSet i Field.landed_on (Value.str w)
      = Except.error (StateError.noEntity w) := by
  rw [viewSet_landed]
  exact setLandedOn_error s i w _ (name_to_index_absent _ _ hw habs)

theorem C7_witness :
    sampleState.viewSet 0 Field.landed_on (Value.str "Mars")
      = Except.error (StateError.noEntity "Mars") :=
  C7_landed_write_absent_name sampleState 0 "Mars" (by decide) (by decide)

/-- C8 (amended): state-level name lookup on an absent name fails, but with
the plain `ValueError` raised by `list.index`, not with the distinct
`PhysicsState.NoEntityError`; the no-such-entity condition carrying the name
is raised by the `_name_to_index` resolution used for landed-on writes. -/
theorem C8_name_lookup_error_kind (s : PhysicsState) (w : String)
    (hw : w ≠ "") (habs : w ∉ s.entity_names) :
    s.getItemName w = Except.error (StateError.valueError w) ∧
    name_to_index s.entity_names w = Except.error (StateError.noEntity w) ∧
    StateError.valueError w ≠ StateError.noEntity w := by
  refine ⟨?_, name_to_index_absent _ _ hw habs, by simp⟩
  unfold PhysicsState.getItemName
  rw [(listIndex?_eq_none w s.entity_names).mpr habs]

theorem C8_counterexample :
    sampleState.getItemName "Mars" = Except.error (StateError.valueError "Mars") ∧
    sampleState.getItemName "Mars" ≠ Except.error (StateError.noEntity "Mars") := by
  decide

theorem C8_witness :
    sampleState.getItemName "Mars" = Except.error (StateError.valueError "Mars") ∧
    name_to_index sampleState.entity_names "Mars"
      = Except.error (StateError.noEntity "Mars") ∧
    StateError.valueError "Mars" ≠ StateError.noEntity "Mars" :=
  C8_name_lookup_error_kind sampleState "Mars" (by decide) (by decide)

/-- C10: writing the empty string to an entity's landed-on field always
succeeds (the empty name is mapped to the sentinel before any search), stores
the sentinel index −1 in the buffer slot, and a subsequent read of the field
returns the empty string. -/
theorem C10_empty_landed_write (s : PhysicsState) (i : ℕ)
    (hi : i < s.n) (hlen : s.array_rep.length = NUM_MUTABLE_FIELDS * s.n + 2) :
    ∃ s2, s.viewSet i Field.landed_on (Value.str "") = Except.ok s2 ∧
      s2.array_rep
        = s.array_rep.set (s.n * Field.landed_on.blockIndex + i) (-1) ∧
      s2.viewGet i Field.landed_on = Value.str "" := by
  have hok : name_to_index s.entity_names "" = Except.ok NO_INDEX := by
    simp [name_to_index]
  have hslotlen : s.n * Field.landed_on.blockIndex + i < s.array_rep.length := by
    rw [hlen, num_mutable_eq, landed_on_blockIndex]
    omega
  refine ⟨s.setFloat i Field.landed_on ((NO_INDEX : ℤ) : ℚ), ?_, ?_, ?_⟩
  · rw [viewSet_landed]
    exact setLandedOn_ok s i "" NO_INDEX hok
  · unfold PhysicsState.setFloat
    norm_num [NO_INDEX]
  · rw [viewGet_landed]
    unfold PhysicsState.viewLandedOn PhysicsState.setFloat
    simp only []
    rw [getD_set_self _ _ _ hslotlen, pyInt_intCast, if_pos rfl]

theorem C10_witness :
    ∃ s2, sampleState.viewSet 0 Field.landed_on (Value.str "") = Except.ok s2 ∧
      s2.array_rep = sampleState.array_rep.set
        (sampleState.n * Field.landed_on.blockIndex + 0) (-1) ∧
      s2.viewGet 0 Field.landed_on = Value.str "" :=
  C10_empty_landed_write sampleState 0 (by decide) (by decide)

/-- C5 counterexample: in a state containing only AYSE (itself obtained from
the constructor), the active-craft resolution raises `NoEntityError` for the
absent Habitat instead of resolving to AYSE. -/
theorem C5_counterexample :
    PhysicsState.init none ayseProto = Except.ok ayseState ∧
    ayseState.craft = Except.error (StateError.noEntity "Habitat") ∧
    ayseState.craft ≠ Except.ok (some "AYSE") :=
  ⟨ayse_init, by decide, by decide⟩

/-- C5 (amended): active-craft resolution returns none when neither Habitat
nor AYSE is present; returns Habitat when only Habitat is present; raises
`NoEntityError` for Habitat when only AYSE is present (the code resolves
Habitat unconditionally once AYSE exists); and when both are present returns
AYSE exactly when Habitat's landed-on slot holds AYSE's index. -/
theorem C5_craft_resolution (s : PhysicsState) :
    (HABITAT ∉ s.entity_names ∧ AYSE ∉ s.entity_names →
      s.craft = Except.ok none) ∧
    (HABITAT ∈ s.entity_names ∧ AYSE ∉ s.entity_names →
      s.craft = Except.ok (some HABITAT)) ∧
    (HABITAT ∉ s.entity_names ∧ AYSE ∈ s.entity_names →
      s.craft = Except.error (StateError.noEntity HABITAT)) ∧
    (∀ hi ai : ℕ, listIndex? HABITAT s.entity_names = some hi →
      listIndex? AYSE s.entity_names = some ai →
      s.craft = if s.array_rep.getD (Field.landed_on.blockIndex * s.n + hi) 0
          = ((ai : ℕ) : ℚ)
        then Except.ok (some AYSE) else Except.ok (some HABITAT)) := by
  refine ⟨?_, ?_, ?_, ?_⟩
  · intro hcond
    unfold PhysicsState.craft
    rw [if_pos hcond]
  · rintro ⟨hhab, hayse⟩
    unfold PhysicsState.craft
    rw [if_neg (by tauto), if_pos hayse]
  · rintro ⟨hhab, hayse⟩
    unfold PhysicsState.craft
    rw [if_neg (by tauto), if_neg (by simpa using hayse)]
    have hni : name_to_index s.entity_names HABITAT
        = Except.error (StateError.noEntity HABITAT) :=
      name_to_index_absent _ _ (by decide) hhab
    rw [hni]
  · intro hi ai hhi hai
    have hhab : HABITAT ∈ s.entity_names := listIndex?_some_mem _ _ _ hhi
    have hayse : AYSE ∈ s.entity_names := listIndex?_some_mem _ _ _ hai
    unfold PhysicsState.craft
    rw [if_neg (by tauto), if_neg (by simpa using hayse)]
    have hnh : name_to_index s.entity_names HABITAT = Except.ok ((hi : ℕ) : ℤ) := by
      unfold name_to_index
      rw [if_pos (by decide), hhi]
    have hna : name_to_index s.entity_names AYSE = Except.ok ((ai : ℕ) : ℤ) := by
      unfold name_to_index
      rw [if_pos (by decide), hai]
    rw [hnh, hna]
    dsimp only
    rw [Int.toNat_natCast]
    norm_num

theorem C5_witness :
    ayseState.craft = Except.error (StateError.noEntity HABITAT) ∧
    sampleState.craft
      = (if sampleState.array_rep.getD
            (Field.landed_on.blockIndex * sampleState.n + 0) 0 = ((1 : ℕ) : ℚ)
         then Except.ok (some AYSE) else Except.ok (some HABITAT)) :=
  ⟨(C5_craft_resolution ayseState).2.2.1 ⟨by decide, by decide⟩,
   (C5_craft_resolution sampleState).2.2.2 0 1 (by decide) (by decide)⟩

/-- C9: immediately after construction (from a snapshot alone or from any
ingested buffer) every entity's heading slot equals the ingested heading
reduced modulo `two_pi` and lies in `[0, two_pi)`. -/
theorem C9_heading_normalized (y? : Option (List ℚ)) (S : PhysicalState)
    (s : PhysicsState) (h : PhysicsState.init y? S = Except.ok s)
    (i : ℕ) (hi : i < s.n) :
    s.array_rep.getD (s.n * Field.heading.blockIndex + i) 0
        = qmod (ingestedHeading y? S i) two_pi ∧
    0 ≤ s.array_rep.getD (s.n * Field.heading.blockIndex + i) 0 ∧
    s.array_rep.getD (s.n * Field.heading.blockIndex + i) 0 < two_pi := by
  have hmain : s.array_rep.getD (s.n * Field.heading.blockIndex + i) 0
      = qmod (ingestedHeading y? S i) two_pi := by
    obtain ⟨hn, _, _⟩ := init_ok_shape y? S s h
    cases y? with
    | none =>
      rw [hn] at hi
      obtain ⟨v, hv, hslot⟩ := init_none_slot S s h Field.heading (by decide) i hi
      rw [mutableValue_heading] at hv
      cases hv
      rw [hn, hslot, if_pos rfl]
      rfl
    | some y =>
      obtain ⟨hylen, hs⟩ := init_some_char S y s h
      rw [hn] at hi
      have hslotlen : S.entities.length * Field.heading.blockIndex + i
          < y.length := by
        rw [hylen, num_mutable_eq, heading_blockIndex]
        omega
      have hrange : 4 * S.entities.length
            ≤ S.entities.length * Field.heading.blockIndex + i ∧
          S.entities.length * Field.heading.blockIndex + i
            < 5 * S.entities.length := by
        rw [heading_blockIndex]
        omega
      rw [hn, hs]
      dsimp only
      rw [normalizeHeading_getD _ _ _ hslotlen, if_pos hrange]
      unfold ingestedHeading
      rw [Nat.mul_comm]
  exact ⟨hmain, by
    rw [hmain]; exact qmod_nonneg _ _ two_pi_pos, by
    rw [hmain]; exact qmod_lt _ _ two_pi_pos⟩

/-- C1: for a valid snapshot (every landed-on name empty or present),
constructing a state from the snapshot alone and externalizing it reproduces
the snapshot exactly, except that every heading is reduced modulo `two_pi`;
in particular all unchanging fields, all scalar globals and all landed-on
names are preserved. -/
theorem C1_snapshot_roundtrip (S : PhysicalState)
    (hval : ∀ e ∈ S.entities,
      e.landed_on = "" ∨ e.landed_on ∈ S.entities.map EntityRec.name) :
    ∃ s, PhysicsState.init none S = Except.ok s ∧
      s.as_proto = headingReduced S := by
  obtain ⟨s, hs⟩ := init_none_of_valid S hval
  refine ⟨s, hs, ?_⟩
  obtain ⟨hn, hnames, hlen⟩ := init_ok_shape none S s hs
  have hproto : s.proto_state = S := by
    obtain ⟨body, _, _, hsv⟩ := init_none_char S s hs
    rw [hsv]
  unfold PhysicsState.as_proto headingReduced
  rw [hproto, hn]
  dsimp only
  congr 1
  apply list_eq_of_getD (default : EntityRec)
  · simp
  · intro i hi
    have hi' : i < S.entities.length := by simpa using hi
    rw [getD_range_map default (asProtoEntity s) _ i hi',
      getD_map_lt default default _ S.entities i hi']
    unfold asProtoEntity
    rw [hproto,
      init_none_viewFloat S s hs Field.x (by decide) (by decide) i hi',
      init_none_viewFloat S s hs Field.y (by decide) (by decide) i hi',
      init_none_viewFloat S s hs Field.vx (by decide) (by decide) i hi',
      init_none_viewFloat S s hs Field.vy (by decide) (by decide) i hi',
      init_none_viewFloat S s hs Field.heading (by decide) (by decide) i hi',
      init_none_viewFloat S s hs Field.spin (by decide) (by decide) i hi',
      init_none_viewFloat S s hs Field.fuel (by decide) (by decide) i hi',
      init_none_viewFloat S s hs Field.throttle (by decide) (by decide) i hi',
      init_none_viewLanded S s hs i hi',
      init_none_viewBroken S s hs i hi']
    simp [numericValue]

theorem C1_witness :
    ∃ s, PhysicsState.init none sampleProto = Except.ok s ∧
      s.as_proto = headingReduced sampleProto :=
  C1_snapshot_roundtrip sampleProto (by decide)

theorem normalizeHeading_idem (n : ℕ) (buf : List ℚ) :
    normalizeHeading n (normalizeHeading n buf) = normalizeHeading n buf := by
  apply list_eq_of_getD (0 : ℚ)
  · rw [length_normalizeHeading]
  · intro i hilen
    have hbuf : i < buf.length := by
      rwa [length_normalizeHeading, length_normalizeHeading] at hilen
    rw [normalizeHeading_getD n (normalizeHeading n buf) i
        (by rwa [length_normalizeHeading]),
      normalizeHeading_getD n buf i hbuf]
    by_cases hr : 4 * n ≤ i ∧ i < 5 * n
    · rw [if_pos hr, if_pos hr]
      exact qmod_idem _ _ two_pi_pos
    · rw [if_neg hr, if_neg hr]

/-- C3: a state built from a snapshot alone can be rebuilt from its own
y-vector together with the same snapshot, and the rebuilt state returns the
same value as the original through every Entity View accessor (the fast
from-buffer path refines the slow from-snapshot path). -/
theorem C3_buffer_roundtrip (S : PhysicalState) (s : PhysicsState)
    (h : PhysicsState.init none S = Except.ok s) :
    ∃ s2, PhysicsState.init (some s.y0) S = Except.ok s2 ∧
      ∀ (i : ℕ) (f : Field), s2.viewGet i f = s.viewGet i f := by
  obtain ⟨body, hbody, hblen, hs⟩ := init_none_char S s h
  obtain ⟨htr1, htr2⟩ := init_none_trailing S s h
  subst hs
  refine ⟨_, ?_, fun i f => rfl⟩
  unfold PhysicsState.y0
  dsimp only at htr1 htr2 ⊢
  have hal : (normalizeHeading S.entities.length
        (body ++ [S.srb_time, S.time_acc])).length
      = NUM_MUTABLE_FIELDS * S.entities.length + 2 := by
    rw [length_normalizeHeading]
    simp [hblen]
  rw [init_some_of_len S _ hal]
  have e1 : (normalizeHeading S.entities.length
        (body ++ [S.srb_time, S.time_acc])).getD
        ((normalizeHeading S.entities.length
          (body ++ [S.srb_time, S.time_acc])).length - 2) 0
      = S.srb_time := by
    rw [hal, show NUM_MUTABLE_FIELDS * S.entities.length + 2 - 2
        = NUM_MUTABLE_FIELDS * S.entities.length from by omega]
    exact htr1
  have e2 : (normalizeHeading S.entities.length
        (body ++ [S.srb_time, S.time_acc])).getD
        ((normalizeHeading S.entities.length
          (body ++ [S.srb_time, S.time_acc])).length - 1) 0
      = S.time_acc := by
    rw [hal, show NUM_MUTABLE_FIELDS * S.entities.length + 2 - 1
        = NUM_MUTABLE_FIELDS * S.entities.length + 1 from by omega]
    exact htr2
  rw [e1, e2, normalizeHeading_idem]

theorem C3_witness :
    ∃ s2, PhysicsState.init (some sampleState.y0) sampleProto = Except.ok s2 ∧
      ∀ (i : ℕ) (f : Field), s2.viewGet i f = sampleState.viewGet i f :=
  C3_buffer_roundtrip sampleProto sampleState sample_init

theorem writeMutableVals_ok (s : PhysicsState) (i : ℕ) (m : MutableVals)
    (li : ℤ) (h : name_to_index s.entity_names m.landed_on = Except.ok li) :
    s.writeMutableVals i m
      = Except.ok { s with array_rep := writeArray s.n i m li s.array_rep } := by
  unfold PhysicsState.writeMutableVals
  dsimp only
  have h' : name_to_index
      ((((((((s.setFloat i Field.x m.x).setFloat i Field.y m.y).setFloat i
        Field.vx m.vx).setFloat i Field.vy m.vy).setFloat i Field.heading
        m.heading).setFloat i Field.spin m.spin).setFloat i Field.fuel
        m.fuel).setFloat i Field.throttle m.throttle).entity_names
      m.landed_on = Except.ok li := h
  rw [setLandedOn_ok _ i m.landed_on li h']
  unfold PhysicsState.setFloat writeArray
  dsimp only
  rw [blockIndex_x, blockIndex_y, blockIndex_vx, blockIndex_vy,
    heading_blockIndex, blockIndex_spin, blockIndex_fuel, blockIndex_throttle,
    landed_on_blockIndex, broken_blockIndex]

theorem writeArray_length (n i : ℕ) (m : MutableVals) (li : ℤ) (arr : List ℚ) :
    (writeArray n i m li arr).length = arr.length := by
  simp [writeArray]

theorem writeArray_getD_at (n i : ℕ) (m : MutableVals) (li : ℤ) (arr : List ℚ)
    (b : ℕ) (hb : b < 10) (hi : i < n) (hlen : arr.length = 10 * n + 2) :
    (writeArray n i m li arr).getD (n * b + i) 0
      = [m.x, m.y, m.vx, m.vy, m.heading, m.spin, m.fuel, m.throttle,
         ((li : ℤ) : ℚ), if m.broken then 1 else 0].getD b 0 := by
  unfold writeArray
  interval_cases b
  · rw [getD_set_ne, getD_set_ne, getD_set_ne, getD_set_ne, getD_set_ne,
      getD_set_ne, getD_set_ne, getD_set_ne, getD_set_ne, getD_set_self] <;>
      first
      | rfl
      | ((try simp only [List.length_set]); omega)
  · rw [getD_set_ne, getD_set_ne, getD_set_ne, getD_set_ne, getD_set_ne,
      getD_set_ne, getD_set_ne, getD_set_ne, getD_set_self] <;>
      first
      | rfl
      | ((try simp only [List.length_set]); omega)
  · rw [getD_set_ne, getD_set_ne, getD_set_ne, getD_set_ne, getD_set_ne,
      getD_set_ne, getD_set_ne, getD_set_self] <;>
      first
      | rfl
      | ((try simp only [List.length_set]); omega)
  · rw [getD_set_ne, getD_set_ne, getD_set_ne, getD_set_ne, getD_set_ne,
      getD_set_ne, getD_set_self] <;>
      first
      | rfl
      | ((try simp only [List.length_set]); omega)
  · rw [getD_set_ne, getD_set_ne, getD_set_ne, getD_set_ne, getD_set_ne,
      getD_set_self] <;>
      first
      | rfl
      | ((try simp only [List.length_set]); omega)
  · rw [getD_set_ne, getD_set_ne, getD_set_ne, getD_set_ne, getD_set_self] <;>
      first
      | rfl
      | ((try simp only [List.length_set]); omega)
  · rw [getD_set_ne, getD_set_ne, getD_set_ne, getD_set_self] <;>
      first
      | rfl
      | ((try simp only [List.length_set]); omega)
  · rw [getD_set_ne, getD_set_ne, getD_set_self] <;>
      first
      | rfl
      | ((try simp only [List.length_set]); omega)
  · rw [getD_set_ne, getD_set_self] <;>
      first
      | rfl
      | ((try simp only [List.length_set]); omega)
  · rw [getD_set_self] <;>
      first
      | rfl
      | ((try simp only [List.length_set]); omega)

theorem writeArray_getD_other (n i j : ℕ) (m : MutableVals) (li : ℤ)
    (arr : List ℚ) (b : ℕ) (hb : b < 10) (hi : i < n) (hj : j < n)
    (hij : i ≠ j) :
    (writeArray n i m li arr).getD (n * b + j) 0 = arr.getD (n * b + j) 0 := by
  unfold writeArray
  interval_cases b <;>
    rw [getD_set_ne, getD_set_ne, getD_set_ne, getD_set_ne, getD_set_ne,
      getD_set_ne, getD_set_ne, getD_set_ne, getD_set_ne, getD_set_ne] <;>
    omega

theorem writeArray_getD_landed (n i : ℕ) (m : MutableVals) (li : ℤ)
    (arr : List ℚ) (hi : i < n) (hlen : arr.length = 10 * n + 2) :
    (writeArray n i m li arr).getD (n * 8 + i) 0 = ((li : ℤ) : ℚ) := by
  rw [writeArray_getD_at n i m li arr 8 (by decide) hi hlen]
  rfl

theorem writeArray_getD_broken (n i : ℕ) (m : MutableVals) (li : ℤ)
    (arr : List ℚ) (hi : i < n) (hlen : arr.length = 10 * n + 2) :
    (writeArray n i m li arr).getD (n * 9 + i) 0
      = (if m.broken then 1 else 0) := by
  rw [writeArray_getD_at n i m li arr 9 (by decide) hi hlen]
  rfl

/-- C6 counterexample: assigning a view of the same state bound to a
DIFFERENT index is silently skipped although the two slots hold different
values, and a genuine record assignment does not copy the unchanging mass
field. -/
theorem C6_counterexample :
    (sampleState.setItem 0 (EntitySource.ownView 1) = Except.ok sampleState ∧
      sampleState.viewGet 0 Field.x ≠ sampleState.viewGet 1 Field.x) ∧
    (∃ s2, sampleState.setItem 0 (EntitySource.record recB) = Except.ok s2 ∧
      s2.viewGet 0 Field.mass ≠ recB.get Field.mass) := by
  refine ⟨⟨rfl, by decide⟩, ?_⟩
  have hok : name_to_index sampleState.entity_names "" = Except.ok (-1) := by
    decide
  refine ⟨_, writeMutableVals_ok sampleState 0 recB.mvals (-1) hok, ?_⟩
  decide

/-- C6 (amended): the no-op fast path of entity replacement fires for every
view owned by the target state itself, whatever index the view is bound to;
a genuine copy from an entity record with a resolvable landed-on name writes
exactly the ten mutable fields of slot `i` — every unchanging field of that
slot and every field of every other slot keeps its value. -/
theorem C6_entity_replace (s : PhysicsState) (i : ℕ) (hi : i < s.n)
    (hlen : s.array_rep.length = NUM_MUTABLE_FIELDS * s.n + 2) :
    (∀ j, s.setItem i (EntitySource.ownView j) = Except.ok s) ∧
    (∀ e : EntityRec, e.landed_on = "" ∨ e.landed_on ∈ s.entity_names →
      ∃ s2, s.setItem i (EntitySource.record e) = Except.ok s2 ∧
        s2.proto_state = s.proto_state ∧
        (∀ f, f.unchanging = true → s2.viewGet i f = s.viewGet i f) ∧
        (∀ f, f.unchanging = false → s2.viewGet i f = e.get f) ∧
        (∀ j f, j < s.n → j ≠ i → s2.viewGet j f = s.viewGet j f)) := by
  have hlen10 : s.array_rep.length = 10 * s.n + 2 := by
    rwa [num_mutable_eq] at hlen
  refine ⟨fun j => rfl, ?_⟩
  intro e he
  have hok := name_to_index_ok s.entity_names e.landed_on he
  refine ⟨_,
    writeMutableVals_ok s i e.mvals (landedIdx s.entity_names e.landed_on) hok,
    rfl, ?_, ?_, ?_⟩
  · intro f hf
    rw [viewGet_unchanging _ _ _ hf, viewGet_unchanging _ _ _ hf]
  · intro f hf
    cases f with
    | name => exact absurd hf (by decide)
    | mass => exact absurd hf (by decide)
    | r => exact absurd hf (by decide)
    | artificial => exact absurd hf (by decide)
    | atmosphere_thickness => exact absurd hf (by decide)
    | atmosphere_scaling => exact absurd hf (by decide)
    | x =>
      rw [viewGet_float _ _ _ (by decide) (by decide)]
      unfold PhysicsState.viewFloat
      dsimp only
      rw [blockIndex_x,
        writeArray_getD_at s.n i e.mvals _ s.array_rep 0 (by decide) hi hlen10]
      rfl
    | y =>
      rw [viewGet_float _ _ _ (by decide) (by decide)]
      unfold PhysicsState.viewFloat
      dsimp only
      rw [blockIndex_y,
        writeArray_getD_at s.n i e.mvals _ s.array_rep 1 (by decide) hi hlen10]
      rfl
    | vx =>
      rw [viewGet_float _ _ _ (by decide) (by decide)]
      unfold PhysicsState.viewFloat
      dsimp only
      rw [blockIndex_vx,
        writeArray_getD_at s.n i e.mvals _ s.array_rep 2 (by decide) hi hlen10]
      rfl
    | vy =>
      rw [viewGet_float _ _ _ (by decide) (by decide)]
      unfold PhysicsState.viewFloat
      dsimp only
      rw [blockIndex_vy,
        writeArray_getD_at s.n i e.mvals _ s.array_rep 3 (by decide) hi hlen10]
      rfl
    | heading =>
      rw [viewGet_float _ _ _ (by decide) (by decide)]
      unfold PhysicsState.viewFloat
      dsimp only
      rw [heading_blockIndex,
        writeArray_getD_at s.n i e.mvals _ s.array_rep 4 (by decide) hi hlen10]
      rfl
    | spin =>
      rw [viewGet_float _ _ _ (by decide) (by decide)]
      unfold PhysicsState.viewFloat
      dsimp only
      rw [blockIndex_spin,
        writeArray_getD_at s.n i e.mvals _ s.array_rep 5 (by decide) hi hlen10]
      rfl
    | fuel =>
      rw [viewGet_float _ _ _ (by decide) (by decide)]
      unfold PhysicsState.viewFloat
      dsimp only
      rw [blockIndex_fuel,
        writeArray_getD_at s.n i e.mvals _ s.array_rep 6 (by decide) hi hlen10]
      rfl
    | throttle =>
      rw [viewGet_float _ _ _ (by decide) (by decide)]
      unfold PhysicsState.viewFloat
      dsimp only
      rw [blockIndex_throttle,
        writeArray_getD_at s.n i e.mvals _ s.array_rep 7 (by decide) hi hlen10]
      rfl
    | landed_on =>
      rw [viewGet_landed]
      unfold PhysicsState.viewLandedOn
      dsimp only
      rw [landed_on_blockIndex,
        writeArray_getD_landed s.n i e.mvals _ s.array_rep hi hlen10,
        pyInt_intCast]
      by_cases hemp : e.landed_on = ""
      · unfold landedIdx
        rw [if_pos hemp, if_pos rfl]
        simp [EntityRec.get, hemp]
      · obtain ⟨k, hk⟩ := listIndex?_mem _ _ (he.resolve_left hemp)
        unfold landedIdx
        rw [if_neg hemp, hk]
        have hknot : ¬ (((k : ℕ) : ℤ) = NO_INDEX) := by
          unfold NO_INDEX
          omega
        rw [show ((some k).getD 0 : ℕ) = k from rfl, if_neg hknot,
          Int.toNat_natCast]
        rw [listIndex?_some_getD _ _ _ hk]
        simp [EntityRec.get]
    | broken =>
      rw [viewGet_broken]
      unfold PhysicsState.viewBroken
      dsimp only
      rw [broken_blockIndex,
        writeArray_getD_broken s.n i e.mvals _ s.array_rep hi hlen10]
      show Value.bool (decide ¬(if e.broken then (1 : ℚ) else 0) = 0)
          = e.get Field.broken
      cases hb : e.broken <;> simp [EntityRec.get, hb]
  · intro j f hj hji
    by_cases hf : f.unchanging = true
    · rw [viewGet_unchanging _ _ _ hf, viewGet_unchanging _ _ _ hf]
    · have hf' : f.unchanging = false := by simpa using hf
      cases f with
      | name => exact absurd hf' (by decide)
      | mass => exact absurd hf' (by decide)
      | r => exact absurd hf' (by decide)
      | artificial => exact absurd hf' (by decide)
      | atmosphere_thickness => exact absurd hf' (by decide)
      | atmosphere_scaling => exact absurd hf' (by decide)
      | x =>
        rw [viewGet_float _ _ _ hf' (by decide),
          viewGet_float _ _ _ hf' (by decide)]
        unfold PhysicsState.viewFloat
        dsimp only
        rw [blockIndex_x, writeArray_getD_other s.n i j e.mvals _ s.array_rep
          0 (by decide) hi hj (Ne.symm hji)]
      | y =>
        rw [viewGet_float _ _ _ hf' (by decide),
          viewGet_float _ _ _ hf' (by decide)]
        unfold PhysicsState.viewFloat
        dsimp only
        rw [blockIndex_y, writeArray_getD_other s.n i j e.mvals _ s.array_rep
          1 (by decide) hi hj (Ne.symm hji)]
      | vx =>
        rw [viewGet_float _ _ _ hf' (by decide),
          viewGet_float _ _ _ hf' (by decide)]
        unfold PhysicsState.viewFloat
        dsimp only
        rw [blockIndex_vx, writeArray_getD_other s.n i j e.mvals _ s.array_rep
          2 (by decide) hi hj (Ne.symm hji)]
      | vy =>
        rw [viewGet_float _ _ _ hf' (by decide),
          viewGet_float _ _ _ hf' (by decide)]
        unfold PhysicsState.viewFloat
        dsimp only
        rw [blockIndex_vy, writeArray_getD_other s.n i j e.mvals _ s.array_rep
          3 (by decide) hi hj (Ne.symm hji)]
      | heading =>
        rw [viewGet_float _ _ _ hf' (by decide),
          viewGet_float _ _ _ hf' (by decide)]
        unfold PhysicsState.viewFloat
        dsimp only
        rw [heading_blockIndex, writeArray_getD_other s.n i j e.mvals _
          s.array_rep 4 (by decide) hi hj (Ne.symm hji)]
      | spin =>
        rw [viewGet_float _ _ _ hf' (by decide),
          viewGet_float _ _ _ hf' (by decide)]
        unfold PhysicsState.viewFloat
        dsimp only
        rw [blockIndex_spin, writeArray_getD_other s.n i j e.mvals _
          s.array_rep 5 (by decide) hi hj (Ne.symm hji)]
      | fuel =>
        rw [viewGet_float _ _ _ hf' (by decide),
          viewGet_float _ _ _ hf' (by decide)]
        unfold PhysicsState.viewFloat
        dsimp only
        rw [blockIndex_fuel, writeArray_getD_other s.n i j e.mvals _
          s.array_rep 6 (by decide) hi hj (Ne.symm hji)]
      | throttle =>
        rw [viewGet_float _ _ _ hf' (by decide),
          viewGet_float _ _ _ hf' (by decide)]
        unfold PhysicsState.viewFloat
        dsimp only
        rw [blockIndex_throttle, writeArray_getD_other s.n i j e.mvals _
          s.array_rep 7 (by decide) hi hj (Ne.symm hji)]
      | landed_on =>
        rw [viewGet_landed, viewGet_landed]
        unfold PhysicsState.viewLandedOn
        dsimp only
        rw [landed_on_blockIndex, writeArray_getD_other s.n i j e.mvals _
          s.array_rep 8 (by decide) hi hj (Ne.symm hji)]
      | broken =>
        rw [viewGet_broken, viewGet_broken]
        unfold PhysicsState.viewBroken
        dsimp only
        rw [broken_blockIndex, writeArray_getD_other s.n i j e.mvals _
          s.array_rep 9 (by decide) hi hj (Ne.symm hji)]

theorem C6_witness :
    (∀ j, sampleState.setItem 0 (EntitySource.ownView j)
        = Except.ok sampleState) ∧
    (∃ s2, sampleState.setItem 0 (EntitySource.record recB) = Except.ok s2 ∧
      s2.proto_state = sampleState.proto_state ∧
      (∀ f, f.unchanging = true →
        s2.viewGet 0 f = sampleState.viewGet 0 f) ∧
      (∀ f, f.unchanging = false → s2.viewGet 0 f = recB.get f) ∧
      (∀ j f, j < sampleState.n → j ≠ 0 →
        s2.viewGet j f = sampleState.viewGet j f)) :=
  ⟨(C6_entity_replace sampleState 0 (by decide) (by decide)).1,
   (C6_entity_replace sampleState 0 (by decide) (by decide)).2 recB
     (Or.inl rfl)⟩

theorem C9_witness :
    (s75.array_rep.getD (s75.n * Field.heading.blockIndex + 0) 0
        = qmod (ingestedHeading (some y75) proto1 0) two_pi ∧
      0 ≤ s75.array_rep.getD (s75.n * Field.heading.blockIndex + 0) 0 ∧
      s75.array_rep.getD (s75.n * Field.heading.blockIndex + 0) 0 < two_pi) ∧
    ingestedHeading (some y75) proto1 0 = 15 / 2 :=
  ⟨C9_heading_normalized (some y75) proto1 s75 s75_init 0 (by decide), rfl⟩

end OrbitXState
